import Mathlib

/-!
Verification of the DijkstraMapLib repository: a shallow embedding of the
distance-grid data structure (`src/classes/DijkstraMap/DijkstraMap.hpp`), the
flood-fill generator in its refactored form (`src/DijkstraMapLib.hpp`) and its
original form (`src/DijskstraMapLib.hpp`), together with proofs of the spec's
claims about them.

Modelling conventions:
* C++ `int` values are modelled as `Int`; the generator is proved never to
  leave the range `[0, UNREACHABLE]`, so two's-complement wraparound never
  occurs in any behaviour discussed here.
* The dense `width × height` distance store is modelled as a total function
  `Int → Int → Int`; only in-bounds cells are ever read through `getDistance`
  so this is observationally identical to the vector-of-vectors.
* `std::priority_queue` with `std::greater` on `(dist, x, y)` tuples is
  modelled as a list kept sorted in ascending lexicographic order by ordered
  insertion; its head is the minimum element, exactly the element `top()`
  returns.
* The unbounded `while (!queue.empty())` loop is modelled by the fuelled
  recursion `runLoop`; `generateDijkstraMap` supplies the fuel `fuelBound`,
  and it is proved below that this fuel always suffices to reach queue
  exhaustion and that any larger fuel yields the same result, so the fuelled
  function coincides with the C++ loop.
-/

/-- `enum class DistanceType` from `DijkstraMap.hpp`. -/
inductive DistanceType where
  | Manhattan
  | Chebyshev
  | Euclidean
deriving DecidableEq, Repr

/-- `DijkstraMap::UNREACHABLE = std::numeric_limits<int>::max()`. -/
def UNREACHABLE : Int := 2147483647

/-- The `DijkstraMap` class: width, height, dense distance store, metric tag. -/
structure DijkstraMap where
  width : Nat
  height : Nat
  distances : Int → Int → Int
  distanceType : DistanceType

/-- The constructor `DijkstraMap(w, h, distType)`: every cell starts at
`UNREACHABLE`. -/
def DijkstraMap.create (w h : Nat) (distType : DistanceType) : DijkstraMap :=
  ⟨w, h, fun _ _ => UNREACHABLE, distType⟩

/-- `DijkstraMap::isWithinBounds`. -/
def DijkstraMap.isWithinBounds (m : DijkstraMap) (x y : Int) : Bool :=
  decide (0 ≤ x) && decide (x < (m.width : Int)) &&
  decide (0 ≤ y) && decide (y < (m.height : Int))

/-- `DijkstraMap::getDistance`: the stored value in bounds, `UNREACHABLE`
out of bounds. -/
def DijkstraMap.getDistance (m : DijkstraMap) (x y : Int) : Int :=
  if x < 0 ∨ (m.width : Int) ≤ x ∨ y < 0 ∨ (m.height : Int) ≤ y then UNREACHABLE
  else m.distances x y

/-- `DijkstraMap::setDistance`: writes in bounds, no-op out of bounds. -/
def DijkstraMap.setDistance (m : DijkstraMap) (x y distance : Int) : DijkstraMap :=
  if 0 ≤ x ∧ x < (m.width : Int) ∧ 0 ≤ y ∧ y < (m.height : Int) then
    { m with distances := fun a b => if a = x ∧ b = y then distance else m.distances a b }
  else m

/-- `DijkstraMap::isReachable`. -/
def DijkstraMap.isReachable (m : DijkstraMap) (x y : Int) : Bool :=
  m.getDistance x y != UNREACHABLE

/-- `DijkstraMap::getDimensions`. -/
def DijkstraMap.getDimensions (m : DijkstraMap) : Nat × Nat :=
  (m.width, m.height)

/-- `DijkstraMap::getDistanceType`. -/
def DijkstraMap.getDistanceType (m : DijkstraMap) : DistanceType :=
  m.distanceType

/-- `DijkstraMap::setDistanceType`. -/
def DijkstraMap.setDistanceType (m : DijkstraMap) (distType : DistanceType) : DijkstraMap :=
  { m with distanceType := distType }

/-- `DijkstraMap::calculateManhattanDistance`: `std::abs(dx) + std::abs(dy)`,
evaluated without overflow — it agrees with the source's 32-bit `int`
computation exactly on the non-overflowing range (see `calcDistInt32`), which
covers every use the generator makes of it. -/
def calculateManhattanDistance (dx dy : Int) : Int :=
  (dx.natAbs : Int) + (dy.natAbs : Int)

/-- `DijkstraMap::calculateChebyshevDistance`: `std::max(std::abs(dx), std::abs(dy))`. -/
def calculateChebyshevDistance (dx dy : Int) : Int :=
  max (dx.natAbs : Int) (dy.natAbs : Int)

/-- The nearest natural number to `Real.sqrt n`: `Nat.sqrt n` when
`n ≤ sqrt n * (sqrt n + 1)` and `Nat.sqrt n + 1` otherwise.  Since the square
root of an integer is never an exact half-integer, this is the value
`std::round(std::sqrt(n))` computes (rounding ties away from zero never
fires); the characterisation is proved in `calculateDistance_metric_formulas`. -/
def roundSqrt (n : Nat) : Nat :=
  let s := Nat.sqrt n
  if n ≤ s * s + s then s else s + 1

/-- `DijkstraMap::calculateEuclideanDistance`:
`std::round(std::sqrt(dx*dx + dy*dy))` as an exact integer computation,
evaluated without overflow — it agrees with the source's 32-bit `int`
computation exactly when `dx*dx + dy*dy` fits in `int` (see `calcDistInt32`),
which covers every use the generator makes of it. -/
def calculateEuclideanDistance (dx dy : Int) : Int :=
  (roundSqrt (dx * dx + dy * dy).toNat : Int)

/-- The `switch (distanceType)` body of `DijkstraMap::calculateDistance`
(the `default` case also dispatches to the Euclidean computation), with the
`int` arithmetic evaluated without overflow; `calcDistInt32` below is the
faithful 32-bit evaluation, and the two provably agree on the non-overflowing
range, which covers every call the generator performs (neighbor offsets of
magnitude at most 1). -/
def calcDist (dt : DistanceType) (x1 y1 x2 y2 : Int) : Int :=
  let dx := x2 - x1
  let dy := y2 - y1
  match dt with
  | DistanceType.Manhattan => calculateManhattanDistance dx dy
  | DistanceType.Chebyshev => calculateChebyshevDistance dx dy
  | DistanceType.Euclidean => calculateEuclideanDistance dx dy

/-- `DijkstraMap::calculateDistance`. -/
def DijkstraMap.calculateDistance (m : DijkstraMap) (x1 y1 x2 y2 : Int) : Int :=
  calcDist m.distanceType x1 y1 x2 y2

/-- Two's-complement wraparound of a mathematical integer into the signed
32-bit range `[-2^31, 2^31)`: the value a 32-bit `int` stores when the
source's arithmetic overflows. -/
def wrap32 (n : Int) : Int :=
  (n + 2147483648) % 4294967296 - 2147483648

/-- `std::abs` of a 32-bit `int` value with the result stored back in `int`
(`std::abs(INT_MIN)` is undefined in the source; this model wraps it). -/
def abs32 (a : Int) : Int :=
  wrap32 (a.natAbs : Int)

/-- The source's `calculateDistance` with every `int` operation evaluated in
32-bit two's-complement arithmetic: the subtractions `dx = x2 - x1` and
`dy = y2 - y1` wrap, the Manhattan sum `abs(dx) + abs(dy)` wraps, and the
Euclidean branch squares and sums in `int` before converting to `double`.
When the wrapped Euclidean sum is negative the source takes `std::sqrt` of a
negative `double` (NaN) and the cast back to `int` is unspecified; the model
clamps that already-undefined region to 0 through `Int.toNat` and is only
quoted where the wrapped sum is nonnegative. -/
def calcDistInt32 (dt : DistanceType) (x1 y1 x2 y2 : Int) : Int :=
  let dx := wrap32 (x2 - x1)
  let dy := wrap32 (y2 - y1)
  match dt with
  | DistanceType.Manhattan => wrap32 (abs32 dx + abs32 dy)
  | DistanceType.Chebyshev => max (abs32 dx) (abs32 dy)
  | DistanceType.Euclidean =>
      (roundSqrt (wrap32 (wrap32 (dx * dx) + wrap32 (dy * dy))).toNat : Int)

/-- `DijkstraMap::clear`: every in-bounds cell reset to `UNREACHABLE` (the
model resets the whole store; only in-bounds cells are observable). -/
def DijkstraMap.clear (m : DijkstraMap) : DijkstraMap :=
  { m with distances := fun _ _ => UNREACHABLE }

namespace DijkstraMapLib

/-- `using Coord = std::tuple<int, int>`. -/
abbrev Coord := Int × Int

/-- `using CoordList = std::vector<Coord>`. -/
abbrev CoordList := List Coord

/-- `using QueueEntry = std::tuple<int, int, int>`: `(distance, x, y)`. -/
abbrev QueueEntry := Int × Int × Int

/-- Lexicographic order on queue entries, the order `std::greater<QueueEntry>`
inverts so that `top()` yields the smallest tuple. -/
def entryLe (a b : QueueEntry) : Bool :=
  decide (a.1 < b.1) ||
  (decide (a.1 = b.1) &&
    (decide (a.2.1 < b.2.1) ||
      (decide (a.2.1 = b.2.1) && decide (a.2.2 ≤ b.2.2))))

/-- `queue.push(e)` for the min-priority queue, modelled as ordered insertion
into the ascending-sorted list (the head is then `queue.top()`). -/
def queuePush (e : QueueEntry) : List QueueEntry → List QueueEntry
  | [] => [e]
  | f :: rest => if entryLe e f then e :: f :: rest else f :: queuePush e rest

namespace detail

/-- `DijkstraMapLib::detail::getDirections`. -/
def getDirections (distType : DistanceType) : CoordList :=
  if distType = DistanceType.Chebyshev then
    [(0, 1), (0, -1), (1, 0), (-1, 0), (1, 1), (1, -1), (-1, 1), (-1, -1)]
  else
    [(0, 1), (0, -1), (1, 0), (-1, 0)]

/-- `DijkstraMapLib::detail::initializeGoals`: the loop over `goals`, skipping
entries that are out of bounds or not walkable, seeding the rest with
distance 0. The mutated map and queue are threaded through a fold. -/
def initializeGoals (dijkstraMap : DijkstraMap) (goals : CoordList)
    (isWalkable : Int → Int → Bool) (queue : List QueueEntry) :
    DijkstraMap × List QueueEntry :=
  goals.foldl
    (fun s g =>
      if !(s.1.isWithinBounds g.1 g.2) || !(isWalkable g.1 g.2) then s
      else (s.1.setDistance g.1 g.2 0, queuePush (0, g.1, g.2) s.2))
    (dijkstraMap, queue)

/-- `DijkstraMapLib::detail::processNeighbor`. -/
def processNeighbor (dijkstraMap : DijkstraMap) (currentDist currentX currentY dx dy : Int)
    (isWalkable : Int → Int → Bool) (queue : List QueueEntry) :
    DijkstraMap × List QueueEntry × Bool :=
  let neighborX := currentX + dx
  let neighborY := currentY + dy
  if !(dijkstraMap.isWithinBounds neighborX neighborY) || !(isWalkable neighborX neighborY) then
    (dijkstraMap, queue, false)
  else
    let movementCost := dijkstraMap.calculateDistance currentX currentY neighborX neighborY
    let newDistance := currentDist + movementCost
    if dijkstraMap.getDistance neighborX neighborY ≤ newDistance then
      (dijkstraMap, queue, false)
    else
      (dijkstraMap.setDistance neighborX neighborY newDistance,
       queuePush (newDistance, neighborX, neighborY) queue, true)

end detail

/-- The `for (const auto& [dx, dy] : directions)` loop body of
`generateDijkstraMap`: process every neighbor in turn, threading the map and
the queue (the returned `bool` of `processNeighbor` is discarded). -/
def processNeighbors (dijkstraMap : DijkstraMap) (currentDist currentX currentY : Int)
    (directions : CoordList) (isWalkable : Int → Int → Bool) (queue : List QueueEntry) :
    DijkstraMap × List QueueEntry :=
  directions.foldl
    (fun s d =>
      let r := detail.processNeighbor s.1 currentDist currentX currentY d.1 d.2 isWalkable s.2
      (r.1, r.2.1))
    (dijkstraMap, queue)

/-- The `while (!queue.empty())` loop of `generateDijkstraMap`, with explicit
fuel standing for the (proved-finite) number of iterations: pop the minimum
entry, discard it if stale (`currentDist > getDistance`), otherwise relax all
neighbors. -/
def runLoop (isWalkable : Int → Int → Bool) (directions : CoordList) :
    Nat → DijkstraMap → List QueueEntry → DijkstraMap × List QueueEntry
  | 0, m, queue => (m, queue)
  | _ + 1, m, [] => (m, [])
  | fuel + 1, m, e :: rest =>
    if m.getDistance e.2.1 e.2.2 < e.1 then
      runLoop isWalkable directions fuel m rest
    else
      let s := processNeighbors m e.1 e.2.1 e.2.2 directions isWalkable rest
      runLoop isWalkable directions fuel s.1 s.2

/-- Sum over all in-bounds cells of the stored distance, clamped to `Nat`.
Together with the queue length this bounds the remaining loop iterations. -/
def gridPotential (m : DijkstraMap) : Nat :=
  Finset.sum (Finset.range m.width) fun x =>
    Finset.sum (Finset.range m.height) fun y => (m.getDistance (x : Int) (y : Int)).toNat

/-- Fuel sufficient for `runLoop` to reach queue exhaustion (proved in
`generateDijkstraMap_terminates`). -/
def fuelBound (m : DijkstraMap) (queue : List QueueEntry) : Nat :=
  gridPotential m + queue.length

/-- `DijkstraMapLib::generateDijkstraMap` (refactored header
`src/DijkstraMapLib.hpp`): clear, seed goals, pick the neighborhood from the
metric, run the flood fill to queue exhaustion. -/
def generateDijkstraMap (dijkstraMap : DijkstraMap) (goals : CoordList)
    (isWalkable : Int → Int → Bool) : DijkstraMap :=
  let cleared := dijkstraMap.clear
  let init := detail.initializeGoals cleared goals isWalkable []
  let directions := detail.getDirections init.1.getDistanceType
  (runLoop isWalkable directions (fuelBound init.1 init.2) init.1 init.2).1

/-- `DijkstraMapLib::findUnreachableTiles`: scan x-major over all in-bounds
coordinates, collecting walkable tiles the grid reports unreachable. -/
def findUnreachableTiles (dijkstraMap : DijkstraMap) (isWalkable : Int → Int → Bool) :
    CoordList :=
  (List.range dijkstraMap.width).foldl
    (fun acc (x : Nat) =>
      (List.range dijkstraMap.height).foldl
        (fun acc2 (y : Nat) =>
          if isWalkable (x : Int) (y : Int) &&
              !(dijkstraMap.isReachable (x : Int) (y : Int)) then
            acc2 ++ [((x : Int), (y : Int))]
          else acc2)
        acc)
    []

/-- `DijkstraMapLib::generateDijkstraMapFromSingleGoal`. -/
def generateDijkstraMapFromSingleGoal (dijkstraMap : DijkstraMap) (goalX goalY : Int)
    (isWalkable : Int → Int → Bool) : DijkstraMap :=
  generateDijkstraMap dijkstraMap [(goalX, goalY)] isWalkable

end DijkstraMapLib

/-! ### Basic facts about the grid operations -/

theorem UNREACHABLE_pos : 0 < UNREACHABLE := by decide

theorem isWithinBounds_iff (m : DijkstraMap) (x y : Int) :
    m.isWithinBounds x y = true ↔
      0 ≤ x ∧ x < (m.width : Int) ∧ 0 ≤ y ∧ y < (m.height : Int) := by
  simp [DijkstraMap.isWithinBounds, and_assoc]

theorem getDistance_of_inb (m : DijkstraMap) (x y : Int)
    (h : m.isWithinBounds x y = true) : m.getDistance x y = m.distances x y := by
  rw [isWithinBounds_iff] at h
  simp only [DijkstraMap.getDistance, if_neg]
  omega

theorem getDistance_of_not_inb (m : DijkstraMap) (x y : Int)
    (h : ¬ m.isWithinBounds x y = true) : m.getDistance x y = UNREACHABLE := by
  rw [isWithinBounds_iff] at h
  simp only [DijkstraMap.getDistance, if_pos]
  omega

theorem setDistance_width (m : DijkstraMap) (x y v : Int) :
    (m.setDistance x y v).width = m.width := by
  unfold DijkstraMap.setDistance; split <;> rfl

theorem setDistance_height (m : DijkstraMap) (x y v : Int) :
    (m.setDistance x y v).height = m.height := by
  unfold DijkstraMap.setDistance; split <;> rfl

theorem setDistance_distanceType (m : DijkstraMap) (x y v : Int) :
    (m.setDistance x y v).distanceType = m.distanceType := by
  unfold DijkstraMap.setDistance; split <;> rfl

theorem setDistance_of_not_inb (m : DijkstraMap) (x y v : Int)
    (h : ¬ m.isWithinBounds x y = true) : m.setDistance x y v = m := by
  rw [isWithinBounds_iff] at h
  unfold DijkstraMap.setDistance
  rw [if_neg]
  omega

theorem getDistance_setDistance_self (m : DijkstraMap) (x y v : Int)
    (h : m.isWithinBounds x y = true) :
    (m.setDistance x y v).getDistance x y = v := by
  rw [isWithinBounds_iff] at h
  unfold DijkstraMap.setDistance
  rw [if_pos (by omega)]
  unfold DijkstraMap.getDistance
  rw [if_neg (by dsimp only; omega)]
  simp

theorem getDistance_setDistance_other (m : DijkstraMap) (x y v a b : Int)
    (h : ¬ (a = x ∧ b = y)) :
    (m.setDistance x y v).getDistance a b = m.getDistance a b := by
  unfold DijkstraMap.setDistance
  split
  · unfold DijkstraMap.getDistance
    dsimp only
    split
    · rfl
    · simp [if_neg h]
  · rfl

theorem getDistance_setDistance_le (m : DijkstraMap) (x y v : Int)
    (h : v ≤ m.getDistance x y) (a b : Int) :
    (m.setDistance x y v).getDistance a b ≤ m.getDistance a b := by
  by_cases hab : a = x ∧ b = y
  · obtain ⟨rfl, rfl⟩ := hab
    by_cases hin : m.isWithinBounds a b = true
    · rw [getDistance_setDistance_self m a b v hin]; exact h
    · rw [setDistance_of_not_inb m a b v hin]
  · rw [getDistance_setDistance_other m x y v a b hab]

theorem clear_width (m : DijkstraMap) : m.clear.width = m.width := rfl

theorem clear_height (m : DijkstraMap) : m.clear.height = m.height := rfl

theorem clear_distanceType (m : DijkstraMap) : m.clear.distanceType = m.distanceType := rfl

theorem getDistance_clear (m : DijkstraMap) (x y : Int) :
    m.clear.getDistance x y = UNREACHABLE := by
  unfold DijkstraMap.clear DijkstraMap.getDistance
  split <;> rfl

/-! ### Queue model facts -/

namespace DijkstraMapLib

theorem mem_queuePush (e a : QueueEntry) (l : List QueueEntry) :
    a ∈ queuePush e l ↔ a = e ∨ a ∈ l := by
  induction l with
  | nil => simp [queuePush]
  | cons f rest ih =>
    unfold queuePush
    split
    · simp
    · simp only [List.mem_cons, ih]
      tauto

theorem length_queuePush (e : QueueEntry) (l : List QueueEntry) :
    (queuePush e l).length = l.length + 1 := by
  induction l with
  | nil => rfl
  | cons f rest ih =>
    unfold queuePush
    split
    · rfl
    · simp [ih]

end DijkstraMapLib

/-! ### Facts about the metric cost functions -/

theorem calcDist_nonneg (dt : DistanceType) (x1 y1 x2 y2 : Int) :
    0 ≤ calcDist dt x1 y1 x2 y2 := by
  cases dt <;>
    simp only [calcDist, calculateManhattanDistance, calculateChebyshevDistance,
      calculateEuclideanDistance] <;>
    positivity

theorem calcDist_shift (dt : DistanceType) (x y a b : Int) :
    calcDist dt x y (x + a) (y + b) = calcDist dt 0 0 a b := by
  have h1 : x + a - x = a := by ring
  have h2 : y + b - y = b := by ring
  cases dt <;> simp [calcDist, h1, h2]

theorem getDirections_ne_zero (dt : DistanceType) :
    ∀ d ∈ DijkstraMapLib.detail.getDirections dt, ¬ (d.1 = 0 ∧ d.2 = 0) := by
  cases dt <;> decide

theorem calcDist_dir_one (dt : DistanceType) (d : Int × Int)
    (hd : d ∈ DijkstraMapLib.detail.getDirections dt) (x y : Int) :
    calcDist dt x y (x + d.1) (y + d.2) = 1 := by
  rw [calcDist_shift]
  cases dt <;>
    simp only [DijkstraMapLib.detail.getDirections, List.mem_cons, List.not_mem_nil, or_false,
      reduceIte, reduceCtorEq, if_true, if_false] at hd <;>
    rcases hd with rfl | rfl | rfl | rfl | rfl | rfl | rfl | rfl <;> decide

/-! ### The rounded square root is the nearest integer to the real root -/

theorem roundSqrt_char (n : Nat) :
    (1 ≤ roundSqrt n → (2 * (roundSqrt n : Int) - 1) ^ 2 < 4 * (n : Int)) ∧
    4 * (n : Int) < (2 * (roundSqrt n : Int) + 1) ^ 2 := by
  have hs1 : Nat.sqrt n * Nat.sqrt n ≤ n := Nat.sqrt_le n
  have hs2 : n < (Nat.sqrt n + 1) * (Nat.sqrt n + 1) := Nat.lt_succ_sqrt n
  simp only [roundSqrt]
  split
  next h =>
    set s := Nat.sqrt n with hsdef
    have hs1' : (s : Int) * s ≤ (n : Int) := by exact_mod_cast hs1
    have h' : (n : Int) ≤ (s : Int) * s + s := by exact_mod_cast h
    constructor
    · intro h1
      have h1' : (1 : Int) ≤ (s : Int) := by exact_mod_cast h1
      nlinarith [hs1', h1']
    · nlinarith [h']
  next h =>
    set s := Nat.sqrt n with hsdef
    have h' : (s : Int) * s + s + 1 ≤ (n : Int) := by
      have : s * s + s + 1 ≤ n := by omega
      exact_mod_cast this
    have hs2' : (n : Int) < ((s : Int) + 1) * ((s : Int) + 1) := by exact_mod_cast hs2
    constructor
    · intro _
      push_cast
      nlinarith [h']
    · push_cast
      nlinarith [hs2']

theorem roundSqrt_sq (k : Nat) : roundSqrt (k * k) = k := by
  have h : Nat.sqrt (k * k) = k := by simpa [Nat.pow_two] using Nat.sqrt_eq' k
  simp [roundSqrt, h, Nat.le_add_right]

/-! ### Dimensions are preserved by goal seeding and the flood-fill loop -/

namespace DijkstraMapLib

theorem initializeGoals_dims (goals : CoordList) :
    ∀ (m : DijkstraMap) (w : Int → Int → Bool) (q : List QueueEntry),
      (detail.initializeGoals m goals w q).1.width = m.width ∧
      (detail.initializeGoals m goals w q).1.height = m.height ∧
      (detail.initializeGoals m goals w q).1.distanceType = m.distanceType := by
  induction goals with
  | nil => intro m w q; exact ⟨rfl, rfl, rfl⟩
  | cons g t ih =>
    intro m w q
    simp only [detail.initializeGoals, List.foldl_cons]
    split
    · exact ih m w q
    · have := ih (m.setDistance g.1 g.2 0) w (queuePush (0, g.1, g.2) q)
      simpa [detail.initializeGoals, setDistance_width, setDistance_height,
        setDistance_distanceType] using this

end DijkstraMapLib

/-! ### C7: total get/set with silent out-of-bounds behaviour -/

/-- C7: `getDistance` returns the `UNREACHABLE` sentinel exactly when the
coordinate is out of bounds and the stored value otherwise; `setDistance`
writes the value when in bounds and returns the map entirely unchanged when
out of bounds; neither operation has a failure path. -/
theorem getDistance_setDistance_total (m : DijkstraMap) (x y v : Int) :
    (m.isWithinBounds x y = false →
      m.getDistance x y = UNREACHABLE ∧ m.setDistance x y v = m) ∧
    (m.isWithinBounds x y = true →
      m.getDistance x y = m.distances x y ∧
      (m.setDistance x y v).getDistance x y = v ∧
      (∀ a b : Int, ¬(a = x ∧ b = y) →
        (m.setDistance x y v).getDistance a b = m.getDistance a b) ∧
      (m.setDistance x y v).width = m.width ∧
      (m.setDistance x y v).height = m.height ∧
      (m.setDistance x y v).distanceType = m.distanceType) := by
  constructor
  · intro h
    have h' : ¬ m.isWithinBounds x y = true := by simp [h]
    exact ⟨getDistance_of_not_inb m x y h', setDistance_of_not_inb m x y v h'⟩
  · intro h
    exact ⟨getDistance_of_inb m x y h, getDistance_setDistance_self m x y v h,
      fun a b hab => getDistance_setDistance_other m x y v a b hab,
      setDistance_width m x y v, setDistance_height m x y v,
      setDistance_distanceType m x y v⟩

/-- Witness for C7 at concrete inputs: an in-bounds write is observed and an
out-of-bounds write is the identity. -/
theorem getDistance_setDistance_total_witness :
    ((DijkstraMap.create 2 2 DistanceType.Manhattan).setDistance 0 0 5).getDistance 0 0 = 5 ∧
    (DijkstraMap.create 2 2 DistanceType.Manhattan).setDistance 5 0 7 =
      DijkstraMap.create 2 2 DistanceType.Manhattan := by
  refine ⟨((getDistance_setDistance_total (DijkstraMap.create 2 2 DistanceType.Manhattan)
    0 0 5).2 (by decide)).2.1, ((getDistance_setDistance_total
    (DijkstraMap.create 2 2 DistanceType.Manhattan) 5 0 7).1 (by decide)).2⟩

/-! ### C3: the three metric formulas, on the 32-bit-representable range -/

theorem wrap32_eq_self (n : Int) (h1 : -2147483648 ≤ n) (h2 : n < 2147483648) :
    wrap32 n = n := by
  unfold wrap32
  omega

/-- On inputs whose squared coordinate differences fit in a 32-bit `int`, the
faithful 32-bit evaluation of the source's distance arithmetic agrees with the
overflow-free model. -/
theorem calcDistInt32_eq_calcDist (dt : DistanceType) (x1 y1 x2 y2 : Int)
    (hrange : (x2 - x1) ^ 2 + (y2 - y1) ^ 2 <= 2147483647) :
    calcDistInt32 dt x1 y1 x2 y2 = calcDist dt x1 y1 x2 y2 := by
  have e1 : (x2 - x1) ^ 2 = (x2 - x1) * (x2 - x1) := by ring
  have e2 : (y2 - y1) ^ 2 = (y2 - y1) * (y2 - y1) := by ring
  rw [e1, e2] at hrange
  have hdxnn := mul_self_nonneg (x2 - x1)
  have hdynn := mul_self_nonneg (y2 - y1)
  have hdxsq : (x2 - x1) * (x2 - x1) <= 2147483647 := by linarith
  have hdysq : (y2 - y1) * (y2 - y1) <= 2147483647 := by linarith
  have hdxa : (x2 - x1).natAbs <= 46340 := by
    by_contra hc
    push_neg at hc
    have h46 : (46341 : Nat) <= (x2 - x1).natAbs := hc
    have h2 : (46341 : Nat) * 46341 <= (x2 - x1).natAbs * (x2 - x1).natAbs :=
      Nat.mul_le_mul h46 h46
    have h3 : (((46341 : Nat) * 46341 : Nat) : Int) <=
        (((x2 - x1).natAbs * (x2 - x1).natAbs : Nat) : Int) := by exact_mod_cast h2
    rw [Int.natAbs_mul_self] at h3
    norm_num at h3
    linarith
  have hdya : (y2 - y1).natAbs <= 46340 := by
    by_contra hc
    push_neg at hc
    have h46 : (46341 : Nat) <= (y2 - y1).natAbs := hc
    have h2 : (46341 : Nat) * 46341 <= (y2 - y1).natAbs * (y2 - y1).natAbs :=
      Nat.mul_le_mul h46 h46
    have h3 : (((46341 : Nat) * 46341 : Nat) : Int) <=
        (((y2 - y1).natAbs * (y2 - y1).natAbs : Nat) : Int) := by exact_mod_cast h2
    rw [Int.natAbs_mul_self] at h3
    norm_num at h3
    linarith
  have hb1 : -2147483648 <= x2 - x1 := by omega
  have hb2 : x2 - x1 < 2147483648 := by omega
  have hb3 : -2147483648 <= y2 - y1 := by omega
  have hb4 : y2 - y1 < 2147483648 := by omega
  have hb5 : -2147483648 <= ((x2 - x1).natAbs : Int) := by omega
  have hb6 : ((x2 - x1).natAbs : Int) < 2147483648 := by omega
  have hb7 : -2147483648 <= ((y2 - y1).natAbs : Int) := by omega
  have hb8 : ((y2 - y1).natAbs : Int) < 2147483648 := by omega
  have hb9 : -2147483648 <= ((x2 - x1).natAbs : Int) + ((y2 - y1).natAbs : Int) := by
    omega
  have hb10 : ((x2 - x1).natAbs : Int) + ((y2 - y1).natAbs : Int) < 2147483648 := by
    omega
  have hb11 : -2147483648 <= (x2 - x1) * (x2 - x1) := by linarith
  have hb12 : (x2 - x1) * (x2 - x1) < 2147483648 := by linarith
  have hb13 : -2147483648 <= (y2 - y1) * (y2 - y1) := by linarith
  have hb14 : (y2 - y1) * (y2 - y1) < 2147483648 := by linarith
  have hb15 : -2147483648 <= (x2 - x1) * (x2 - x1) + (y2 - y1) * (y2 - y1) := by
    linarith
  have hb16 : (x2 - x1) * (x2 - x1) + (y2 - y1) * (y2 - y1) < 2147483648 := by
    linarith
  have hwdx : wrap32 (x2 - x1) = x2 - x1 := wrap32_eq_self (x2 - x1) hb1 hb2
  have hwdy : wrap32 (y2 - y1) = y2 - y1 := wrap32_eq_self (y2 - y1) hb3 hb4
  have hwax : abs32 (x2 - x1) = ((x2 - x1).natAbs : Int) :=
    wrap32_eq_self ((x2 - x1).natAbs : Int) hb5 hb6
  have hway : abs32 (y2 - y1) = ((y2 - y1).natAbs : Int) :=
    wrap32_eq_self ((y2 - y1).natAbs : Int) hb7 hb8
  have hwman : wrap32 (((x2 - x1).natAbs : Int) + ((y2 - y1).natAbs : Int)) =
      ((x2 - x1).natAbs : Int) + ((y2 - y1).natAbs : Int) :=
    wrap32_eq_self (((x2 - x1).natAbs : Int) + ((y2 - y1).natAbs : Int)) hb9 hb10
  have hwsx : wrap32 ((x2 - x1) * (x2 - x1)) = (x2 - x1) * (x2 - x1) :=
    wrap32_eq_self ((x2 - x1) * (x2 - x1)) hb11 hb12
  have hwsy : wrap32 ((y2 - y1) * (y2 - y1)) = (y2 - y1) * (y2 - y1) :=
    wrap32_eq_self ((y2 - y1) * (y2 - y1)) hb13 hb14
  have hwsum : wrap32 ((x2 - x1) * (x2 - x1) + (y2 - y1) * (y2 - y1)) =
      (x2 - x1) * (x2 - x1) + (y2 - y1) * (y2 - y1) :=
    wrap32_eq_self ((x2 - x1) * (x2 - x1) + (y2 - y1) * (y2 - y1)) hb15 hb16
  cases dt with
  | Manhattan =>
    show wrap32 (abs32 (wrap32 (x2 - x1)) + abs32 (wrap32 (y2 - y1))) =
      calculateManhattanDistance (x2 - x1) (y2 - y1)
    rw [hwdx, hwdy, hwax, hway]
    exact hwman
  | Chebyshev =>
    show max (abs32 (wrap32 (x2 - x1))) (abs32 (wrap32 (y2 - y1))) =
      calculateChebyshevDistance (x2 - x1) (y2 - y1)
    rw [hwdx, hwdy, hwax, hway]
    rfl
  | Euclidean =>
    show (roundSqrt (wrap32 (wrap32 (wrap32 (x2 - x1) * wrap32 (x2 - x1)) +
        wrap32 (wrap32 (y2 - y1) * wrap32 (y2 - y1)))).toNat : Int) =
      calculateEuclideanDistance (x2 - x1) (y2 - y1)
    rw [hwdx, hwdy, hwsx, hwsy, hwsum]
    rfl

/-- C3 (amended): `calculateDistance` is a pure function of the coordinates and
the metric tag, and on every input whose squared coordinate differences fit in
a 32-bit `int` — the range on which the source's `int` arithmetic does not
overflow — it computes `|x2-x1| + |y2-y1|` for Manhattan,
`max(|x2-x1|, |y2-y1|)` for Chebyshev, and for Euclidean the nearest integer
to `sqrt((x2-x1)^2 + (y2-y1)^2)` — characterised by
`(2r-1)^2 < 4n < (2r+1)^2`, which pins the unique nearest integer since an
exact tie at a half-integer is impossible for integer `n`, so the
round-half-away-from-zero clause never fires; moreover the faithful 32-bit
evaluation `calcDistInt32` of the source's arithmetic agrees with
`calculateDistance` on this whole range. Outside that range the source's
`int` arithmetic wraps and the formulas fail, as
`calculateDistance_metric_formulas_counterexample` shows. -/
theorem calculateDistance_metric_formulas (m : DijkstraMap) (x1 y1 x2 y2 : Int)
    (hrange : (x2 - x1) ^ 2 + (y2 - y1) ^ 2 ≤ 2147483647) :
    (∀ m2 : DijkstraMap, m2.distanceType = m.distanceType →
      m2.calculateDistance x1 y1 x2 y2 = m.calculateDistance x1 y1 x2 y2) ∧
    calcDistInt32 m.distanceType x1 y1 x2 y2 = m.calculateDistance x1 y1 x2 y2 ∧
    (m.distanceType = DistanceType.Manhattan →
      m.calculateDistance x1 y1 x2 y2 = |x2 - x1| + |y2 - y1|) ∧
    (m.distanceType = DistanceType.Chebyshev →
      m.calculateDistance x1 y1 x2 y2 = max |x2 - x1| |y2 - y1|) ∧
    (m.distanceType = DistanceType.Euclidean →
      0 ≤ m.calculateDistance x1 y1 x2 y2 ∧
      (1 ≤ m.calculateDistance x1 y1 x2 y2 →
        (2 * m.calculateDistance x1 y1 x2 y2 - 1) ^ 2 <
          4 * ((x2 - x1) ^ 2 + (y2 - y1) ^ 2)) ∧
      4 * ((x2 - x1) ^ 2 + (y2 - y1) ^ 2) <
        (2 * m.calculateDistance x1 y1 x2 y2 + 1) ^ 2) := by
  refine ⟨fun m2 h => by simp [DijkstraMap.calculateDistance, h],
    calcDistInt32_eq_calcDist m.distanceType x1 y1 x2 y2 hrange, ?_, ?_, ?_⟩
  · intro h
    rw [DijkstraMap.calculateDistance, h]
    show (((x2 - x1).natAbs : Int) + ((y2 - y1).natAbs : Int)) = |x2 - x1| + |y2 - y1|
    rw [Int.abs_eq_natAbs, Int.abs_eq_natAbs]
  · intro h
    rw [DijkstraMap.calculateDistance, h]
    show (max ((x2 - x1).natAbs : Int) ((y2 - y1).natAbs : Int)) = max |x2 - x1| |y2 - y1|
    rw [Int.abs_eq_natAbs, Int.abs_eq_natAbs]
  · intro h
    have hnn : (0 : Int) ≤ (x2 - x1) * (x2 - x1) + (y2 - y1) * (y2 - y1) :=
      add_nonneg (mul_self_nonneg _) (mul_self_nonneg _)
    have hcast : (((x2 - x1) * (x2 - x1) + (y2 - y1) * (y2 - y1)).toNat : Int) =
        (x2 - x1) ^ 2 + (y2 - y1) ^ 2 := by
      rw [Int.toNat_of_nonneg hnn]; ring
    have hchar := roundSqrt_char ((x2 - x1) * (x2 - x1) + (y2 - y1) * (y2 - y1)).toNat
    rw [hcast] at hchar
    have hval : m.calculateDistance x1 y1 x2 y2 =
        (roundSqrt ((x2 - x1) * (x2 - x1) + (y2 - y1) * (y2 - y1)).toNat : Int) := by
      simp [DijkstraMap.calculateDistance, h, calcDist, calculateEuclideanDistance]
    rw [hval]
    refine ⟨by positivity, fun h1 => ?_, hchar.2⟩
    have h1n : 1 ≤ roundSqrt ((x2 - x1) * (x2 - x1) + (y2 - y1) * (y2 - y1)).toNat := by
      exact_mod_cast h1
    exact hchar.1 h1n

/-- Witness for C3: at the in-range input (0,0) to (3,4) the 32-bit evaluation
agrees with the model, the Euclidean value is nonnegative, and the Manhattan
formula holds. -/
theorem calculateDistance_metric_formulas_witness :
    (DijkstraMap.create 10 10 DistanceType.Euclidean).calculateDistance 0 0 3 4 ≥ 0 ∧
    (DijkstraMap.create 10 10 DistanceType.Manhattan).calculateDistance 0 0 3 4 =
      |(3 : Int) - 0| + |(4 : Int) - 0| ∧
    calcDistInt32 DistanceType.Euclidean 0 0 3 4 =
      (DijkstraMap.create 10 10 DistanceType.Euclidean).calculateDistance 0 0 3 4 := by
  have hE := calculateDistance_metric_formulas
    (DijkstraMap.create 10 10 DistanceType.Euclidean) 0 0 3 4 (by decide)
  have hM := calculateDistance_metric_formulas
    (DijkstraMap.create 10 10 DistanceType.Manhattan) 0 0 3 4 (by decide)
  exact ⟨(hE.2.2.2.2 rfl).1, hM.2.2.1 rfl, hE.2.1⟩

/-- Counterexample to C3 as stated over all integer coordinates: at the
`int`-representable input (0,0) to (50000,50000) the source's Euclidean branch
squares and sums in 32-bit `int`, wrapping `2 * 50000 * 50000 = 5000000000`
around to `705032704`, and so computes `round(sqrt(705032704)) = 26552`; the
nearest integer to `sqrt(5000000000)` demanded by the claim is `70711`, the
value the overflow-free model computes. The last conjunct certifies that
26552 is not the nearest integer to the true root: even `(2r+1)^2` falls short
of `4n`. -/
theorem calculateDistance_metric_formulas_counterexample :
    calcDistInt32 DistanceType.Euclidean 0 0 50000 50000 = 26552 ∧
    calcDist DistanceType.Euclidean 0 0 50000 50000 = 70711 ∧
    calcDistInt32 DistanceType.Euclidean 0 0 50000 50000 ≠
      calcDist DistanceType.Euclidean 0 0 50000 50000 ∧
    (2 * calcDistInt32 DistanceType.Euclidean 0 0 50000 50000 + 1) ^ 2 <
      4 * (((50000 : Int) - 0) ^ 2 + ((50000 : Int) - 0) ^ 2) := by
  have hs1 : Nat.sqrt 705032704 = 26552 := (Nat.eq_sqrt.mpr (by norm_num)).symm
  have hs2 : Nat.sqrt 5000000000 = 70710 := (Nat.eq_sqrt.mpr (by norm_num)).symm
  have hr1 : roundSqrt 705032704 = 26552 := by
    simp only [roundSqrt, hs1]
    norm_num
  have hr2 : roundSqrt 5000000000 = 70711 := by
    simp only [roundSqrt, hs2]
    norm_num
  have hv1 : calcDistInt32 DistanceType.Euclidean 0 0 50000 50000 =
      (roundSqrt 705032704 : Int) := by
    have harg : (wrap32 (wrap32 (wrap32 ((50000 : Int) - 0) * wrap32 ((50000 : Int) - 0)) +
        wrap32 (wrap32 ((50000 : Int) - 0) * wrap32 ((50000 : Int) - 0)))).toNat =
        705032704 := by decide
    calc calcDistInt32 DistanceType.Euclidean 0 0 50000 50000
        = (roundSqrt (wrap32 (wrap32 (wrap32 ((50000 : Int) - 0) *
            wrap32 ((50000 : Int) - 0)) + wrap32 (wrap32 ((50000 : Int) - 0) *
            wrap32 ((50000 : Int) - 0)))).toNat : Int) := rfl
      _ = (roundSqrt 705032704 : Int) := by rw [harg]
  have hv2 : calcDist DistanceType.Euclidean 0 0 50000 50000 =
      (roundSqrt 5000000000 : Int) := by
    have harg : ((((50000 : Int) - 0) * ((50000 : Int) - 0)) +
        (((50000 : Int) - 0) * ((50000 : Int) - 0))).toNat = 5000000000 := by decide
    calc calcDist DistanceType.Euclidean 0 0 50000 50000
        = (roundSqrt ((((50000 : Int) - 0) * ((50000 : Int) - 0)) +
            (((50000 : Int) - 0) * ((50000 : Int) - 0))).toNat : Int) := rfl
      _ = (roundSqrt 5000000000 : Int) := by rw [harg]
  rw [hv1, hv2, hr1, hr2]
  refine ⟨by norm_num, by norm_num, by norm_num, by norm_num⟩

/-! ### C2: the metric decides the movement neighborhood -/

namespace DijkstraMapLib

/-- C2: a run of `generateDijkstraMap` expands popped tiles with the offset
list `detail.getDirections` of the grid's metric, and that list is the eight
orthogonal-plus-diagonal offsets exactly when the metric is Chebyshev and the
four orthogonal offsets exactly when it is Manhattan or Euclidean. -/
theorem directions_metric_coupling :
    (∀ dt : DistanceType,
      (detail.getDirections dt =
          [(0, 1), (0, -1), (1, 0), (-1, 0), (1, 1), (1, -1), (-1, 1), (-1, -1)] ↔
        dt = DistanceType.Chebyshev) ∧
      (detail.getDirections dt = [(0, 1), (0, -1), (1, 0), (-1, 0)] ↔
        (dt = DistanceType.Manhattan ∨ dt = DistanceType.Euclidean))) ∧
    ∀ (m : DijkstraMap) (goals : CoordList) (w : Int → Int → Bool),
      generateDijkstraMap m goals w =
        (runLoop w (detail.getDirections m.distanceType)
          (fuelBound (detail.initializeGoals m.clear goals w []).1
            (detail.initializeGoals m.clear goals w []).2)
          (detail.initializeGoals m.clear goals w []).1
          (detail.initializeGoals m.clear goals w []).2).1 := by
  constructor
  · intro dt; cases dt <;> exact ⟨by decide, by decide⟩
  · intro m goals w
    have hdt : (detail.initializeGoals m.clear goals w []).1.getDistanceType =
        m.distanceType := by
      rw [DijkstraMap.getDistanceType, (initializeGoals_dims goals m.clear w []).2.2,
        clear_distanceType]
    rw [generateDijkstraMap, hdt]

end DijkstraMapLib

/-! ### Fold characterisations used for `findUnreachableTiles` -/

theorem foldl_filter_append {α β : Type} (P : α → Bool) (g : α → β) :
    ∀ (l : List α) (acc : List β),
      l.foldl (fun a e => if P e then a ++ [g e] else a) acc =
        acc ++ (l.filter P).map g := by
  intro l
  induction l with
  | nil => intro acc; simp
  | cons e t ih =>
    intro acc
    simp only [List.foldl_cons]
    by_cases h : P e
    · rw [if_pos h, ih, List.filter_cons_of_pos h]
      simp
    · rw [if_neg h, ih, List.filter_cons_of_neg h]

theorem foldl_join {α β : Type} (f : α → List β) :
    ∀ (l : List α) (acc : List β),
      l.foldl (fun a e => a ++ f e) acc = acc ++ (l.map f).flatten := by
  intro l
  induction l with
  | nil => intro acc; simp
  | cons e t ih =>
    intro acc
    simp only [List.foldl_cons, List.map_cons, List.flatten]
    rw [ih]
    simp

theorem foldl_congr_fun {α β : Type} (f g : β → α → β) (h : ∀ b a, f b a = g b a) :
    ∀ (l : List α) (b : β), l.foldl f b = l.foldl g b := by
  intro l
  induction l with
  | nil => intro b; rfl
  | cons e t ih =>
    intro b
    simp only [List.foldl_cons, h]
    exact ih _

/-! ### C6: `findUnreachableTiles` returns exactly the walkable unreachable tiles -/

namespace DijkstraMapLib

/-- C6: `findUnreachableTiles` is the x-major scan collecting, in this fixed
deterministic order, exactly those in-bounds coordinates that the predicate
reports walkable and the grid reports unreachable; membership excludes every
non-walkable tile and every reachable tile, and the scan is a pure read of
the grid. -/
theorem findUnreachableTiles_exact (m : DijkstraMap) (w : Int → Int → Bool) :
    findUnreachableTiles m w =
      ((List.range m.width).map fun (x : Nat) =>
        ((List.range m.height).filter fun (y : Nat) =>
          w ((x : Int)) ((y : Int)) && !(m.isReachable ((x : Int)) ((y : Int)))).map
            fun (y : Nat) => ((x : Int), (y : Int))).flatten ∧
    ∀ p : Coord, p ∈ findUnreachableTiles m w ↔
      (m.isWithinBounds p.1 p.2 = true ∧ w p.1 p.2 = true ∧
        m.isReachable p.1 p.2 = false) := by
  have heq : findUnreachableTiles m w =
      ((List.range m.width).map fun (x : Nat) =>
        ((List.range m.height).filter fun (y : Nat) =>
          w ((x : Int)) ((y : Int)) && !(m.isReachable ((x : Int)) ((y : Int)))).map
            fun (y : Nat) => ((x : Int), (y : Int))).flatten := by
    unfold findUnreachableTiles
    rw [foldl_congr_fun _
      (fun acc (x : Nat) => acc ++ ((List.range m.height).filter fun (y : Nat) =>
        w ((x : Int)) ((y : Int)) && !(m.isReachable ((x : Int)) ((y : Int)))).map
          (fun (y : Nat) => ((x : Int), (y : Int))))
      (fun acc x => foldl_filter_append _ _ (List.range m.height) acc)]
    exact foldl_join _ (List.range m.width) []
  refine ⟨heq, fun p => ?_⟩
  rw [heq]
  constructor
  · intro hp
    rw [List.mem_flatten] at hp
    obtain ⟨l, hl, hpl⟩ := hp
    rw [List.mem_map] at hl
    obtain ⟨x, hx, rfl⟩ := hl
    rw [List.mem_range] at hx
    rw [List.mem_map] at hpl
    obtain ⟨y, hy, rfl⟩ := hpl
    rw [List.mem_filter] at hy
    obtain ⟨hy, hP⟩ := hy
    rw [List.mem_range] at hy
    rw [Bool.and_eq_true, Bool.not_eq_true'] at hP
    refine ⟨?_, hP.1, hP.2⟩
    rw [isWithinBounds_iff]
    have hx' : (x : Int) < (m.width : Int) := by exact_mod_cast hx
    have hy' : (y : Int) < (m.height : Int) := by exact_mod_cast hy
    exact ⟨by omega, hx', by omega, hy'⟩
  · rintro ⟨hin, hw, hr⟩
    rw [isWithinBounds_iff] at hin
    obtain ⟨h1, h2, h3, h4⟩ := hin
    rw [List.mem_flatten]
    have e1 : (p.1.toNat : Int) = p.1 := by omega
    have e2 : (p.2.toNat : Int) = p.2 := by omega
    refine ⟨((List.range m.height).filter fun (y : Nat) =>
        w ((p.1.toNat : Int)) ((y : Int)) &&
          !(m.isReachable ((p.1.toNat : Int)) ((y : Int)))).map
        (fun (y : Nat) => ((p.1.toNat : Int), (y : Int))),
      List.mem_map.mpr ⟨p.1.toNat, List.mem_range.mpr (by omega), rfl⟩,
      List.mem_map.mpr ⟨p.2.toNat, List.mem_filter.mpr ⟨List.mem_range.mpr (by omega), ?_⟩, ?_⟩⟩
    · rw [e1, e2, hw, hr]
      rfl
    · rw [e1, e2]

end DijkstraMapLib

/-! ### The original header `src/DijskstraMapLib.hpp` -/

namespace DijskstraMapLib

open DijkstraMapLib (Coord CoordList QueueEntry queuePush fuelBound)

/-- The `while (!queue.empty())` loop of the original `generateDijkstraMap`,
with the neighbor relaxation written inline exactly as in
`src/DijskstraMapLib.hpp` (positive `newDistance < getDistance` test). -/
def runLoop (isWalkable : Int → Int → Bool) (directions : CoordList) :
    Nat → DijkstraMap → List QueueEntry → DijkstraMap × List QueueEntry
  | 0, m, queue => (m, queue)
  | _ + 1, m, [] => (m, [])
  | fuel + 1, m, current :: rest =>
    let currentDist := current.1
    let currentX := current.2.1
    let currentY := current.2.2
    if m.getDistance currentX currentY < currentDist then
      runLoop isWalkable directions fuel m rest
    else
      let s := directions.foldl
        (fun s dir =>
          let newX := currentX + dir.1
          let newY := currentY + dir.2
          if !(s.1.isWithinBounds newX newY) || !(isWalkable newX newY) then s
          else
            let movementCost := s.1.calculateDistance currentX currentY newX newY
            let newDistance := currentDist + movementCost
            if newDistance < s.1.getDistance newX newY then
              (s.1.setDistance newX newY newDistance, queuePush (newDistance, newX, newY) s.2)
            else s)
        (m, rest)
      runLoop isWalkable directions fuel s.1 s.2

/-- The original `DijkstraMapLib::generateDijkstraMap` from
`src/DijskstraMapLib.hpp`: goal seeding with the positive in-bounds-and-walkable
test, inline direction selection, then the flood-fill loop. -/
def generateDijkstraMap (dijkstraMap : DijkstraMap) (goals : CoordList)
    (isWalkable : Int → Int → Bool) : DijkstraMap :=
  let cleared := dijkstraMap.clear
  let init := goals.foldl
    (fun s goal =>
      if s.1.isWithinBounds goal.1 goal.2 && isWalkable goal.1 goal.2 then
        (s.1.setDistance goal.1 goal.2 0, queuePush (0, goal.1, goal.2) s.2)
      else s)
    (cleared, ([] : List QueueEntry))
  let directions :=
    if init.1.getDistanceType = DistanceType.Chebyshev then
      [((0 : Int), (1 : Int)), (0, -1), (1, 0), (-1, 0), (1, 1), (1, -1), (-1, 1), (-1, -1)]
    else
      [(0, 1), (0, -1), (1, 0), (-1, 0)]
  (runLoop isWalkable directions (fuelBound init.1 init.2) init.1 init.2).1

end DijskstraMapLib

/-! ### C10: the two headers are observationally equivalent -/

theorem initializeGoals_eq_origInit (goals : DijkstraMapLib.CoordList)
    (w : Int → Int → Bool) (s : DijkstraMap × List DijkstraMapLib.QueueEntry) :
    goals.foldl
      (fun s g =>
        if !(s.1.isWithinBounds g.1 g.2) || !(w g.1 g.2) then s
        else (s.1.setDistance g.1 g.2 0, DijkstraMapLib.queuePush (0, g.1, g.2) s.2))
      s =
    goals.foldl
      (fun s goal =>
        if s.1.isWithinBounds goal.1 goal.2 && w goal.1 goal.2 then
          (s.1.setDistance goal.1 goal.2 0, DijkstraMapLib.queuePush (0, goal.1, goal.2) s.2)
        else s)
      s := by
  refine foldl_congr_fun _ _ (fun s g => ?_) goals s
  cases hA : s.1.isWithinBounds g.1 g.2 <;> cases hB : w g.1 g.2 <;> simp [hA, hB]

theorem processNeighbor_not_ok (m : DijkstraMap) (cd cx cy dx dy : Int)
    (w : Int → Int → Bool) (q : List DijkstraMapLib.QueueEntry)
    (h : (!(m.isWithinBounds (cx + dx) (cy + dy)) || !(w (cx + dx) (cy + dy))) = true) :
    DijkstraMapLib.detail.processNeighbor m cd cx cy dx dy w q = (m, q, false) := by
  unfold DijkstraMapLib.detail.processNeighbor
  rw [if_pos h]

theorem processNeighbor_skip (m : DijkstraMap) (cd cx cy dx dy : Int)
    (w : Int → Int → Bool) (q : List DijkstraMapLib.QueueEntry)
    (h : (!(m.isWithinBounds (cx + dx) (cy + dy)) || !(w (cx + dx) (cy + dy))) = false)
    (hge : m.getDistance (cx + dx) (cy + dy) ≤
      cd + m.calculateDistance cx cy (cx + dx) (cy + dy)) :
    DijkstraMapLib.detail.processNeighbor m cd cx cy dx dy w q = (m, q, false) := by
  unfold DijkstraMapLib.detail.processNeighbor
  rw [if_neg (by simp [h]), if_pos hge]

theorem processNeighbor_write (m : DijkstraMap) (cd cx cy dx dy : Int)
    (w : Int → Int → Bool) (q : List DijkstraMapLib.QueueEntry)
    (h : (!(m.isWithinBounds (cx + dx) (cy + dy)) || !(w (cx + dx) (cy + dy))) = false)
    (hlt : cd + m.calculateDistance cx cy (cx + dx) (cy + dy) <
      m.getDistance (cx + dx) (cy + dy)) :
    DijkstraMapLib.detail.processNeighbor m cd cx cy dx dy w q =
      (m.setDistance (cx + dx) (cy + dy) (cd + m.calculateDistance cx cy (cx + dx) (cy + dy)),
       DijkstraMapLib.queuePush
         (cd + m.calculateDistance cx cy (cx + dx) (cy + dy), cx + dx, cy + dy) q, true) := by
  unfold DijkstraMapLib.detail.processNeighbor
  rw [if_neg (by simp [h]), if_neg (by omega)]

theorem runLoop_eq_origRunLoop (w : Int → Int → Bool) (dirs : DijkstraMapLib.CoordList) :
    ∀ (fuel : Nat) (m : DijkstraMap) (q : List DijkstraMapLib.QueueEntry),
      DijkstraMapLib.runLoop w dirs fuel m q = DijskstraMapLib.runLoop w dirs fuel m q := by
  intro fuel
  induction fuel with
  | zero => intro m q; rfl
  | succ fuel ih =>
    intro m q
    cases q with
    | nil => rfl
    | cons e rest =>
      rw [DijkstraMapLib.runLoop, DijskstraMapLib.runLoop]
      by_cases hstale : m.getDistance e.2.1 e.2.2 < e.1
      · rw [if_pos hstale, if_pos hstale, ih]
      · rw [if_neg hstale, if_neg hstale]
        have hfold : DijkstraMapLib.processNeighbors m e.1 e.2.1 e.2.2 dirs w rest =
            dirs.foldl
              (fun s dir =>
                let newX := e.2.1 + dir.1
                let newY := e.2.2 + dir.2
                if !(s.1.isWithinBounds newX newY) || !(w newX newY) then s
                else
                  let movementCost := s.1.calculateDistance e.2.1 e.2.2 newX newY
                  let newDistance := e.1 + movementCost
                  if newDistance < s.1.getDistance newX newY then
                    (s.1.setDistance newX newY newDistance,
                     DijkstraMapLib.queuePush (newDistance, newX, newY) s.2)
                  else s)
              (m, rest) := by
          refine foldl_congr_fun _ _ (fun s d => ?_) dirs (m, rest)
          show (fun r => ((r.1, r.2.1) : DijkstraMap × List DijkstraMapLib.QueueEntry))
              (DijkstraMapLib.detail.processNeighbor s.1 e.1 e.2.1 e.2.2 d.1 d.2 w s.2) = _
          cases hguard : (!(s.1.isWithinBounds (e.2.1 + d.1) (e.2.2 + d.2)) ||
              !(w (e.2.1 + d.1) (e.2.2 + d.2))) with
          | true =>
            rw [processNeighbor_not_ok s.1 e.1 e.2.1 e.2.2 d.1 d.2 w s.2 hguard]
            simp only [if_pos hguard]
          | false =>
            rcases lt_or_le
              (e.1 + s.1.calculateDistance e.2.1 e.2.2 (e.2.1 + d.1) (e.2.2 + d.2))
              (s.1.getDistance (e.2.1 + d.1) (e.2.2 + d.2)) with hlt | hge
            · rw [processNeighbor_write s.1 e.1 e.2.1 e.2.2 d.1 d.2 w s.2 hguard hlt]
              simp only [hguard, Bool.false_eq_true, if_false, if_pos hlt]
            · rw [processNeighbor_skip s.1 e.1 e.2.1 e.2.2 d.1 d.2 w s.2 hguard hge]
              simp only [hguard, Bool.false_eq_true, if_false, if_neg (not_lt.mpr hge)]
        rw [hfold, ih]

/-- C10: on every input grid, goal list and walkability predicate, the
refactored generator of `src/DijkstraMapLib.hpp` and the original generator of
`src/DijskstraMapLib.hpp` produce grids with identical contents in every cell. -/
theorem refactored_matches_original (m : DijkstraMap) (goals : DijkstraMapLib.CoordList)
    (w : Int → Int → Bool) (x y : Int) :
    (DijkstraMapLib.generateDijkstraMap m goals w).getDistance x y =
      (DijskstraMapLib.generateDijkstraMap m goals w).getDistance x y := by
  have hgen : DijkstraMapLib.generateDijkstraMap m goals w =
      DijskstraMapLib.generateDijkstraMap m goals w := by
    rw [DijkstraMapLib.generateDijkstraMap, DijskstraMapLib.generateDijkstraMap]
    rw [DijkstraMapLib.detail.initializeGoals, initializeGoals_eq_origInit,
      runLoop_eq_origRunLoop]
    rfl
  rw [hgen]

/-! ### Walkable paths from the goal set and their accumulated cost -/

/-- In-bounds with respect to explicit dimensions (the proposition decided by
`DijkstraMap::isWithinBounds`). -/
def inBoundsWH (W H : Nat) (p : Int × Int) : Prop :=
  0 ≤ p.1 ∧ p.1 < (W : Int) ∧ 0 ≤ p.2 ∧ p.2 < (H : Int)

/-- A tile usable by the flood fill: in bounds and walkable. -/
def okTile (W H : Nat) (w : Int → Int → Bool) (p : Int × Int) : Prop :=
  inBoundsWH W H p ∧ w p.1 p.2 = true

theorem isWithinBounds_iff_inBoundsWH (m : DijkstraMap) (x y : Int) :
    m.isWithinBounds x y = true ↔ inBoundsWH m.width m.height (x, y) := by
  rw [isWithinBounds_iff]; rfl

/-- Paths through walkable in-bounds tiles that start at a member of the goal
list and move by offsets of the metric's direction list, together with the
accumulated pairwise cost (the sum of `calculateDistance` over consecutive
tiles) — the quantity `generateDijkstraMap` minimises. -/
inductive GoalPath (W H : Nat) (dt : DistanceType) (w : Int → Int → Bool)
    (goals : List (Int × Int)) : (Int × Int) → Int → Prop where
  | goal (g : Int × Int) (hg : g ∈ goals) (hok : okTile W H w g) :
      GoalPath W H dt w goals g 0
  | step (p q : Int × Int) (c : Int) (hp : GoalPath W H dt w goals p c)
      (hd : (q.1 - p.1, q.2 - p.2) ∈ DijkstraMapLib.detail.getDirections dt)
      (hok : okTile W H w q) :
      GoalPath W H dt w goals q (c + calcDist dt p.1 p.2 q.1 q.2)

/-- A tile is connected to the goal set when some walkable path reaches it. -/
def Connected (m : DijkstraMap) (w : Int → Int → Bool) (goals : List (Int × Int))
    (p : Int × Int) : Prop :=
  ∃ c, GoalPath m.width m.height m.distanceType w goals p c

theorem goalPath_ok {W H : Nat} {dt : DistanceType} {w : Int → Int → Bool}
    {goals : List (Int × Int)} {u : Int × Int} {c : Int}
    (h : GoalPath W H dt w goals u c) : okTile W H w u := by
  cases h with
  | goal g hg hok => exact hok
  | step p q c hp hd hok => exact hok

theorem goalPath_nonneg {W H : Nat} {dt : DistanceType} {w : Int → Int → Bool}
    {goals : List (Int × Int)} {u : Int × Int} {c : Int}
    (h : GoalPath W H dt w goals u c) : 0 ≤ c := by
  induction h with
  | goal g hg hok => exact le_refl 0
  | step p q c hp hd hok ih => exact add_nonneg ih (calcDist_nonneg dt p.1 p.2 q.1 q.2)

/-- The cost of one path step taken from the direction list is exactly 1,
stated for the endpoints as they appear in `GoalPath.step`. -/
theorem calcDist_step_one {dt : DistanceType} {p q : Int × Int}
    (hd : (q.1 - p.1, q.2 - p.2) ∈ DijkstraMapLib.detail.getDirections dt) :
    calcDist dt p.1 p.2 q.1 q.2 = 1 := by
  have h := calcDist_dir_one dt (q.1 - p.1, q.2 - p.2) hd p.1 p.2
  have e1 : p.1 + (q.1 - p.1) = q.1 := by ring
  have e2 : p.2 + (q.2 - p.2) = q.2 := by ring
  rwa [e1, e2] at h

/-! ### The loop invariant -/

/-- Core invariant of the flood-fill state: dimensions and metric are those of
the input grid, every queue entry carries a finite nonnegative priority that
is at least the stored distance of its tile and is realised by a walkable
path, and every finite stored distance is nonnegative, below the sentinel and
realised by a walkable path. -/
structure LoopInv (W H : Nat) (dt : DistanceType) (w : Int → Int → Bool)
    (goals : List (Int × Int)) (m : DijkstraMap) (q : List DijkstraMapLib.QueueEntry) :
    Prop where
  wEq : m.width = W
  hEq : m.height = H
  dtEq : m.distanceType = dt
  entries : ∀ e ∈ q, 0 ≤ e.1 ∧ e.1 < UNREACHABLE ∧
    m.getDistance e.2.1 e.2.2 ≤ e.1 ∧ GoalPath W H dt w goals (e.2.1, e.2.2) e.1
  cells : ∀ x y : Int, m.getDistance x y = UNREACHABLE ∨
    (0 ≤ m.getDistance x y ∧ m.getDistance x y < UNREACHABLE ∧
      GoalPath W H dt w goals (x, y) (m.getDistance x y))

/-- Every accepted goal already stores a nonpositive (hence zero) distance. -/
def GoalsSeeded (W H : Nat) (w : Int → Int → Bool) (goals : List (Int × Int))
    (m : DijkstraMap) : Prop :=
  ∀ g ∈ goals, okTile W H w g → m.getDistance g.1 g.2 ≤ 0

/-- A tile none of whose usable neighbors could still be improved from it. -/
def Relaxed (W H : Nat) (dt : DistanceType) (w : Int → Int → Bool) (m : DijkstraMap)
    (p : Int × Int) : Prop :=
  ∀ d ∈ DijkstraMapLib.detail.getDirections dt,
    okTile W H w (p.1 + d.1, p.2 + d.2) →
      m.getDistance (p.1 + d.1) (p.2 + d.2) ≤
        m.getDistance p.1 p.2 + calcDist dt p.1 p.2 (p.1 + d.1) (p.2 + d.2)

/-- Every finite tile outside the exception set is either already relaxed or
has a queue entry at exactly its stored distance. -/
def Pending (W H : Nat) (dt : DistanceType) (w : Int → Int → Bool) (m : DijkstraMap)
    (q : List DijkstraMapLib.QueueEntry) (exc : Int × Int → Prop) : Prop :=
  ∀ p : Int × Int, ¬ exc p → m.getDistance p.1 p.2 ≠ UNREACHABLE →
    Relaxed W H dt w m p ∨
      ∃ e ∈ q, (e.2.1, e.2.2) = p ∧ e.1 = m.getDistance p.1 p.2

/-- The full invariant carried through every iteration of the loop. -/
def StateInv (W H : Nat) (dt : DistanceType) (w : Int → Int → Bool)
    (goals : List (Int × Int)) (m : DijkstraMap) (q : List DijkstraMapLib.QueueEntry) :
    Prop :=
  LoopInv W H dt w goals m q ∧ GoalsSeeded W H w goals m ∧
    Pending W H dt w m q (fun _ => False)

namespace DijkstraMapLib

theorem guard_false_iff (W H : Nat) (m : DijkstraMap) (hW : m.width = W)
    (hH : m.height = H) (w : Int → Int → Bool) (nx ny : Int) :
    ((!(m.isWithinBounds nx ny) || !(w nx ny)) = false) ↔ okTile W H w (nx, ny) := by
  rw [Bool.or_eq_false_iff]
  simp only [Bool.not_eq_false']
  rw [isWithinBounds_iff_inBoundsWH, hW, hH]
  rfl

theorem getDistance_le_UNREACHABLE {W H : Nat} {dt : DistanceType} {w : Int → Int → Bool}
    {goals : List (Int × Int)} {m : DijkstraMap} {q : List QueueEntry}
    (hInv : LoopInv W H dt w goals m q) (x y : Int) :
    m.getDistance x y ≤ UNREACHABLE := by
  rcases hInv.cells x y with h | h
  · exact le_of_eq h
  · exact le_of_lt h.2.1

theorem processNeighbor_inv (W H : Nat) (dt : DistanceType) (w : Int → Int → Bool)
    (goals : List (Int × Int)) (m : DijkstraMap) (q : List QueueEntry)
    (exc : Int × Int → Prop)
    (hInv : LoopInv W H dt w goals m q) (hPend : Pending W H dt w m q exc)
    (cd cx cy : Int) (d : Int × Int) (hd : d ∈ detail.getDirections dt)
    (hcd0 : 0 ≤ cd)
    (hpath : GoalPath W H dt w goals (cx, cy) cd) :
    ∀ (m2 : DijkstraMap) (q2 : List QueueEntry) (b2 : Bool),
      detail.processNeighbor m cd cx cy d.1 d.2 w q = (m2, q2, b2) →
      LoopInv W H dt w goals m2 q2 ∧
      Pending W H dt w m2 q2 exc ∧
      (∀ a b : Int, m2.getDistance a b ≤ m.getDistance a b) ∧
      (okTile W H w (cx + d.1, cy + d.2) →
        m2.getDistance (cx + d.1) (cy + d.2) ≤
          cd + calcDist dt cx cy (cx + d.1) (cy + d.2)) ∧
      (∀ e ∈ q, e ∈ q2) ∧
      (∀ a b : Int, ¬(a = cx + d.1 ∧ b = cy + d.2) →
        m2.getDistance a b = m.getDistance a b) := by
  intro m2 q2 b2 heq
  have hcalc : m.calculateDistance cx cy (cx + d.1) (cy + d.2) =
      calcDist dt cx cy (cx + d.1) (cy + d.2) := by
    rw [DijkstraMap.calculateDistance, hInv.dtEq]
  by_cases hguard : (!(m.isWithinBounds (cx + d.1) (cy + d.2)) ||
      !(w (cx + d.1) (cy + d.2))) = true
  · rw [processNeighbor_not_ok m cd cx cy d.1 d.2 w q hguard] at heq
    rw [Prod.ext_iff] at heq
    obtain ⟨h1, h2⟩ := heq
    rw [Prod.ext_iff] at h2
    obtain ⟨h2, _⟩ := h2
    dsimp only at h1 h2
    subst h1; subst h2
    refine ⟨hInv, hPend, fun a b => le_refl _, fun hOk => ?_, fun e he => he,
      fun a b _ => rfl⟩
    exfalso
    have := (guard_false_iff W H m hInv.wEq hInv.hEq w (cx + d.1) (cy + d.2)).mpr hOk
    rw [this] at hguard
    exact Bool.false_ne_true hguard
  · have hg : (!(m.isWithinBounds (cx + d.1) (cy + d.2)) ||
        !(w (cx + d.1) (cy + d.2))) = false := Bool.eq_false_iff.mpr hguard
    have hOk : okTile W H w (cx + d.1, cy + d.2) :=
      (guard_false_iff W H m hInv.wEq hInv.hEq w (cx + d.1) (cy + d.2)).mp hg
    have hnbIn : m.isWithinBounds (cx + d.1) (cy + d.2) = true := by
      rw [isWithinBounds_iff_inBoundsWH, hInv.wEq, hInv.hEq]
      exact hOk.1
    rcases le_or_lt (m.getDistance (cx + d.1) (cy + d.2))
      (cd + m.calculateDistance cx cy (cx + d.1) (cy + d.2)) with hge | hlt
    · rw [processNeighbor_skip m cd cx cy d.1 d.2 w q hg hge] at heq
      rw [Prod.ext_iff] at heq
      obtain ⟨h1, h2⟩ := heq
      rw [Prod.ext_iff] at h2
      obtain ⟨h2, _⟩ := h2
      dsimp only at h1 h2
      subst h1; subst h2
      refine ⟨hInv, hPend, fun a b => le_refl _, fun _ => ?_, fun e he => he,
        fun a b _ => rfl⟩
      rw [← hcalc]
      exact hge
    · rw [processNeighbor_write m cd cx cy d.1 d.2 w q hg hlt] at heq
      rw [Prod.ext_iff] at heq
      obtain ⟨h1, h2⟩ := heq
      rw [Prod.ext_iff] at h2
      obtain ⟨h2, _⟩ := h2
      dsimp only at h1 h2
      subst h1; subst h2
      set new := cd + m.calculateDistance cx cy (cx + d.1) (cy + d.2) with hnew
      have hnew0 : 0 ≤ new := by
        rw [hnew, hcalc]
        exact add_nonneg hcd0 (calcDist_nonneg dt cx cy (cx + d.1) (cy + d.2))
      have hnewle : new ≤ m.getDistance (cx + d.1) (cy + d.2) := le_of_lt hlt
      have hnewU : new < UNREACHABLE :=
        lt_of_lt_of_le hlt (getDistance_le_UNREACHABLE hInv (cx + d.1) (cy + d.2))
      have hmono : ∀ a b : Int,
          (m.setDistance (cx + d.1) (cy + d.2) new).getDistance a b ≤
            m.getDistance a b :=
        getDistance_setDistance_le m (cx + d.1) (cy + d.2) new hnewle
      have hself : (m.setDistance (cx + d.1) (cy + d.2) new).getDistance
          (cx + d.1) (cy + d.2) = new :=
        getDistance_setDistance_self m (cx + d.1) (cy + d.2) new hnbIn
      have hother : ∀ a b : Int, ¬(a = cx + d.1 ∧ b = cy + d.2) →
          (m.setDistance (cx + d.1) (cy + d.2) new).getDistance a b =
            m.getDistance a b :=
        fun a b hab => getDistance_setDistance_other m (cx + d.1) (cy + d.2) new a b hab
      have hpath2 : GoalPath W H dt w goals (cx + d.1, cy + d.2) new := by
        have hd2 : ((cx + d.1) - cx, (cy + d.2) - cy) ∈ detail.getDirections dt := by
          have e1 : cx + d.1 - cx = d.1 := by ring
          have e2 : cy + d.2 - cy = d.2 := by ring
          rw [e1, e2]
          exact hd
        have hstep := GoalPath.step (cx, cy) (cx + d.1, cy + d.2) cd hpath hd2 hOk
        rw [hnew, hcalc]
        exact hstep
      refine ⟨?_, ?_, hmono, fun _ => ?_, fun e he => (mem_queuePush _ e q).mpr (Or.inr he),
        hother⟩
      · refine ⟨?_, ?_, ?_, ?_, ?_⟩
        · rw [setDistance_width]; exact hInv.wEq
        · rw [setDistance_height]; exact hInv.hEq
        · rw [setDistance_distanceType]; exact hInv.dtEq
        · intro e he
          rcases (mem_queuePush _ e q).mp he with rfl | he
          · exact ⟨hnew0, hnewU, le_of_eq hself, hpath2⟩
          · obtain ⟨h1, h2, h3, h4⟩ := hInv.entries e he
            exact ⟨h1, h2, le_trans (hmono _ _) h3, h4⟩
        · intro x y
          by_cases hxy : x = cx + d.1 ∧ y = cy + d.2
          · obtain ⟨rfl, rfl⟩ := hxy
            right
            rw [hself]
            exact ⟨hnew0, hnewU, hpath2⟩
          · rw [hother x y hxy]
            exact hInv.cells x y
      · intro p hexc hne
        by_cases hp : p = (cx + d.1, cy + d.2)
        · subst hp
          right
          exact ⟨(new, cx + d.1, cy + d.2), (mem_queuePush _ _ q).mpr (Or.inl rfl),
            rfl, hself.symm⟩
        · have hpne : ¬(p.1 = cx + d.1 ∧ p.2 = cy + d.2) := by
            intro hcon
            exact hp (Prod.ext hcon.1 hcon.2)
          have hpe : (m.setDistance (cx + d.1) (cy + d.2) new).getDistance p.1 p.2 =
              m.getDistance p.1 p.2 := hother p.1 p.2 hpne
          rw [hpe] at hne
          rcases hPend p hexc hne with hrel | ⟨e, he, hpe2, hval⟩
          · left
            intro d2 hd2 hok2
            have h2 := hrel d2 hd2 hok2
            have h1 := hmono (p.1 + d2.1) (p.2 + d2.2)
            rw [hpe]
            exact le_trans h1 h2
          · right
            exact ⟨e, (mem_queuePush _ e q).mpr (Or.inr he), hpe2, by rw [hval, hpe]⟩
      · rw [hself, hnew, hcalc]

end DijkstraMapLib

namespace DijkstraMapLib

theorem goalsSeeded_mono {W H : Nat} {w : Int → Int → Bool} {goals : List (Int × Int)}
    {m m2 : DijkstraMap} (h : ∀ a b : Int, m2.getDistance a b ≤ m.getDistance a b)
    (hs : GoalsSeeded W H w goals m) : GoalsSeeded W H w goals m2 :=
  fun g hg hok => le_trans (h g.1 g.2) (hs g hg hok)

theorem processNeighbors_inv (W H : Nat) (dt : DistanceType) (w : Int → Int → Bool)
    (goals : List (Int × Int)) (cd cx cy : Int) (hcd0 : 0 ≤ cd)
    (hpath : GoalPath W H dt w goals (cx, cy) cd) :
    ∀ (ds : List (Int × Int)), (∀ d ∈ ds, d ∈ detail.getDirections dt) →
    ∀ (m : DijkstraMap) (q : List QueueEntry) (exc : Int × Int → Prop),
      LoopInv W H dt w goals m q → Pending W H dt w m q exc →
      ∀ (m2 : DijkstraMap) (q2 : List QueueEntry),
        processNeighbors m cd cx cy ds w q = (m2, q2) →
        LoopInv W H dt w goals m2 q2 ∧
        Pending W H dt w m2 q2 exc ∧
        (∀ a b : Int, m2.getDistance a b ≤ m.getDistance a b) ∧
        (∀ d ∈ ds, okTile W H w (cx + d.1, cy + d.2) →
          m2.getDistance (cx + d.1) (cy + d.2) ≤
            cd + calcDist dt cx cy (cx + d.1) (cy + d.2)) ∧
        (∀ e ∈ q, e ∈ q2) ∧
        (m2.getDistance cx cy = m.getDistance cx cy) := by
  intro ds
  induction ds with
  | nil =>
    intro _ m q exc hInv hPend m2 q2 heq
    rw [processNeighbors, List.foldl_nil, Prod.ext_iff] at heq
    obtain ⟨h1, h2⟩ := heq
    dsimp only at h1 h2
    subst h1; subst h2
    exact ⟨hInv, hPend, fun a b => le_refl _, fun d hd => absurd hd (List.not_mem_nil d),
      fun e he => he, rfl⟩
  | cons d ds ih =>
    intro hds m q exc hInv hPend m2 q2 heq
    rcases hR : detail.processNeighbor m cd cx cy d.1 d.2 w q with ⟨m1, q1, b1⟩
    have hstep := processNeighbor_inv W H dt w goals m q exc hInv hPend cd cx cy d
      (hds d (List.mem_cons_self d ds)) hcd0 hpath m1 q1 b1 hR
    obtain ⟨hInv1, hPend1, hmono1, hrelax1, hmem1, hunch1⟩ := hstep
    have heq2 : processNeighbors m1 cd cx cy ds w q1 = (m2, q2) := by
      rw [processNeighbors] at heq ⊢
      rw [List.foldl_cons] at heq
      have : (fun (s : DijkstraMap × List QueueEntry) (dd : Int × Int) =>
          ((detail.processNeighbor s.1 cd cx cy dd.1 dd.2 w s.2).1,
           (detail.processNeighbor s.1 cd cx cy dd.1 dd.2 w s.2).2.1)) (m, q) d =
          (m1, q1) := by
        dsimp only
        rw [hR]
      rw [← heq]
      congr 1
      dsimp only at this ⊢
      rw [hR]
    have hrec := ih (fun d2 hd2 => hds d2 (List.mem_cons_of_mem d hd2)) m1 q1 exc
      hInv1 hPend1 m2 q2 heq2
    obtain ⟨hInv2, hPend2, hmono2, hrelax2, hmem2, hunch2⟩ := hrec
    have hne : ¬(cx = cx + d.1 ∧ cy = cy + d.2) := by
      intro hcon
      have hnz := getDirections_ne_zero dt d (hds d (List.mem_cons_self d ds))
      exact hnz ⟨by omega, by omega⟩
    refine ⟨hInv2, hPend2, fun a b => le_trans (hmono2 a b) (hmono1 a b), ?_,
      fun e he => hmem2 e (hmem1 e he), by rw [hunch2, hunch1 cx cy hne]⟩
    intro d2 hd2 hok2
    rcases List.mem_cons.mp hd2 with rfl | hd2
    · exact le_trans (hmono2 _ _) (hrelax1 hok2)
    · exact hrelax2 d2 hd2 hok2

end DijkstraMapLib

namespace DijkstraMapLib

theorem stateInv_stale {W H : Nat} {dt : DistanceType} {w : Int → Int → Bool}
    {goals : List (Int × Int)} {m : DijkstraMap} {e : QueueEntry}
    {rest : List QueueEntry}
    (hSI : StateInv W H dt w goals m (e :: rest))
    (hstale : m.getDistance e.2.1 e.2.2 < e.1) :
    StateInv W H dt w goals m rest := by
  obtain ⟨hInv, hSeed, hPend⟩ := hSI
  refine ⟨⟨hInv.wEq, hInv.hEq, hInv.dtEq,
    fun e2 he2 => hInv.entries e2 (List.mem_cons_of_mem e he2), hInv.cells⟩, hSeed, ?_⟩
  intro p hexc hne
  rcases hPend p hexc hne with hrel | ⟨e2, he2, hpe, hval⟩
  · exact Or.inl hrel
  · rcases List.mem_cons.mp he2 with rfl | he2
    · exfalso
      rw [← hpe] at hval
      dsimp only at hval
      omega
    · exact Or.inr ⟨e2, he2, hpe, hval⟩

theorem stateInv_step {W H : Nat} {dt : DistanceType} {w : Int → Int → Bool}
    {goals : List (Int × Int)} {m : DijkstraMap} {e : QueueEntry}
    {rest : List QueueEntry}
    (hSI : StateInv W H dt w goals m (e :: rest))
    (hns : ¬ m.getDistance e.2.1 e.2.2 < e.1)
    (m2 : DijkstraMap) (q2 : List QueueEntry)
    (heq : processNeighbors m e.1 e.2.1 e.2.2 (detail.getDirections dt) w rest = (m2, q2)) :
    StateInv W H dt w goals m2 q2 := by
  obtain ⟨hInv, hSeed, hPend⟩ := hSI
  obtain ⟨h0, hU, hle, hpath⟩ := hInv.entries e (List.mem_cons_self e rest)
  have hgeteq : m.getDistance e.2.1 e.2.2 = e.1 := le_antisymm hle (not_lt.mp hns)
  have hInvRest : LoopInv W H dt w goals m rest :=
    ⟨hInv.wEq, hInv.hEq, hInv.dtEq,
      fun e2 he2 => hInv.entries e2 (List.mem_cons_of_mem e he2), hInv.cells⟩
  have hPendRest : Pending W H dt w m rest (fun p => p = (e.2.1, e.2.2)) := by
    intro p hexc hne
    rcases hPend p (fun hcon => hcon) hne with hrel | ⟨e2, he2, hpe, hval⟩
    · exact Or.inl hrel
    · rcases List.mem_cons.mp he2 with rfl | he2
      · exact absurd hpe.symm hexc
      · exact Or.inr ⟨e2, he2, hpe, hval⟩
  have hfold := processNeighbors_inv W H dt w goals e.1 e.2.1 e.2.2 h0 hpath
    (detail.getDirections dt) (fun d hd => hd) m rest
    (fun p => p = (e.2.1, e.2.2)) hInvRest hPendRest m2 q2 heq
  obtain ⟨hInv2, hPend2, hmono2, hrelax2, hmem2, hunch2⟩ := hfold
  refine ⟨hInv2, goalsSeeded_mono hmono2 hSeed, ?_⟩
  intro p _ hne
  by_cases hp : p = (e.2.1, e.2.2)
  · subst hp
    left
    intro d hd hok
    have h1 := hrelax2 d hd hok
    have h2 : m2.getDistance e.2.1 e.2.2 = e.1 := by rw [hunch2, hgeteq]
    rw [h2]
    exact h1
  · exact hPend2 p hp hne

theorem runLoop_inv {W H : Nat} {dt : DistanceType} {w : Int → Int → Bool}
    {goals : List (Int × Int)} :
    ∀ (fuel : Nat) (m : DijkstraMap) (q : List QueueEntry),
      StateInv W H dt w goals m q →
      ∀ (m2 : DijkstraMap) (q2 : List QueueEntry),
        runLoop w (detail.getDirections dt) fuel m q = (m2, q2) →
        StateInv W H dt w goals m2 q2 := by
  intro fuel
  induction fuel with
  | zero =>
    intro m q hSI m2 q2 heq
    rw [runLoop, Prod.ext_iff] at heq
    obtain ⟨h1, h2⟩ := heq
    dsimp only at h1 h2
    subst h1; subst h2
    exact hSI
  | succ fuel ih =>
    intro m q hSI m2 q2 heq
    cases q with
    | nil =>
      rw [runLoop, Prod.ext_iff] at heq
      obtain ⟨h1, h2⟩ := heq
      dsimp only at h1 h2
      subst h1; subst h2
      obtain ⟨hInv, hSeed, hPend⟩ := hSI
      exact ⟨⟨hInv.wEq, hInv.hEq, hInv.dtEq, fun e he => absurd he (List.not_mem_nil e),
        hInv.cells⟩, hSeed, hPend⟩
    | cons e rest =>
      rw [runLoop] at heq
      by_cases hstale : m.getDistance e.2.1 e.2.2 < e.1
      · rw [if_pos hstale] at heq
        exact ih m rest (stateInv_stale hSI hstale) m2 q2 heq
      · rw [if_neg hstale] at heq
        rcases hS : processNeighbors m e.1 e.2.1 e.2.2 (detail.getDirections dt) w rest
          with ⟨m1, q1⟩
        rw [hS] at heq
        exact ih m1 q1 (stateInv_step hSI hstale m1 q1 hS) m2 q2 heq

end DijkstraMapLib

/-! ### The termination measure: grid potential plus queue length -/

namespace DijkstraMapLib

theorem gridPotential_setDistance_lt (m : DijkstraMap) (x y v : Int)
    (hin : m.isWithinBounds x y = true) (h0 : 0 ≤ v) (hlt : v < m.getDistance x y) :
    gridPotential (m.setDistance x y v) < gridPotential m := by
  have hb := (isWithinBounds_iff m x y).mp hin
  have hxW : x.toNat < m.width := by omega
  have hyH : y.toNat < m.height := by omega
  have hxc : (x.toNat : Int) = x := by omega
  have hyc : (y.toNat : Int) = y := by omega
  have hvle : v ≤ m.getDistance x y := le_of_lt hlt
  unfold gridPotential
  rw [setDistance_width, setDistance_height]
  apply Finset.sum_lt_sum
  · intro i _
    apply Finset.sum_le_sum
    intro j _
    exact Int.toNat_le_toNat (getDistance_setDistance_le m x y v hvle (i : Int) (j : Int))
  · refine ⟨x.toNat, Finset.mem_range.mpr hxW, ?_⟩
    apply Finset.sum_lt_sum
    · intro j _
      exact Int.toNat_le_toNat (getDistance_setDistance_le m x y v hvle _ _)
    · refine ⟨y.toNat, Finset.mem_range.mpr hyH, ?_⟩
      rw [hxc, hyc, getDistance_setDistance_self m x y v hin]
      omega

theorem fuelBound_processNeighbor_le (m : DijkstraMap) (cd cx cy : Int) (d : Int × Int)
    (w : Int → Int → Bool) (q : List QueueEntry) (hcd0 : 0 ≤ cd)
    (m2 : DijkstraMap) (q2 : List QueueEntry) (b2 : Bool)
    (heq : detail.processNeighbor m cd cx cy d.1 d.2 w q = (m2, q2, b2)) :
    fuelBound m2 q2 ≤ fuelBound m q := by
  by_cases hguard : (!(m.isWithinBounds (cx + d.1) (cy + d.2)) ||
      !(w (cx + d.1) (cy + d.2))) = true
  · rw [processNeighbor_not_ok m cd cx cy d.1 d.2 w q hguard, Prod.ext_iff] at heq
    obtain ⟨h1, h2⟩ := heq
    rw [Prod.ext_iff] at h2
    obtain ⟨h2, _⟩ := h2
    dsimp only at h1 h2
    subst h1; subst h2
    exact le_refl _
  · have hg : (!(m.isWithinBounds (cx + d.1) (cy + d.2)) ||
        !(w (cx + d.1) (cy + d.2))) = false := Bool.eq_false_iff.mpr hguard
    have hnbIn : m.isWithinBounds (cx + d.1) (cy + d.2) = true := by
      rcases Bool.or_eq_false_iff.mp hg with ⟨ha, _⟩
      rw [Bool.not_eq_false'] at ha
      exact ha
    rcases le_or_lt (m.getDistance (cx + d.1) (cy + d.2))
      (cd + m.calculateDistance cx cy (cx + d.1) (cy + d.2)) with hge | hlt
    · rw [processNeighbor_skip m cd cx cy d.1 d.2 w q hg hge, Prod.ext_iff] at heq
      obtain ⟨h1, h2⟩ := heq
      rw [Prod.ext_iff] at h2
      obtain ⟨h2, _⟩ := h2
      dsimp only at h1 h2
      subst h1; subst h2
      exact le_refl _
    · rw [processNeighbor_write m cd cx cy d.1 d.2 w q hg hlt, Prod.ext_iff] at heq
      obtain ⟨h1, h2⟩ := heq
      rw [Prod.ext_iff] at h2
      obtain ⟨h2, _⟩ := h2
      dsimp only at h1 h2
      subst h1; subst h2
      have hnew0 : 0 ≤ cd + m.calculateDistance cx cy (cx + d.1) (cy + d.2) := by
        have := calcDist_nonneg m.distanceType cx cy (cx + d.1) (cy + d.2)
        rw [DijkstraMap.calculateDistance]
        omega
      have hgp := gridPotential_setDistance_lt m (cx + d.1) (cy + d.2)
        (cd + m.calculateDistance cx cy (cx + d.1) (cy + d.2)) hnbIn hnew0 hlt
      unfold fuelBound
      rw [length_queuePush]
      omega

theorem fuelBound_processNeighbors_le (cd cx cy : Int) (w : Int → Int → Bool)
    (hcd0 : 0 ≤ cd) :
    ∀ (ds : List (Int × Int)) (m : DijkstraMap) (q : List QueueEntry),
      fuelBound (processNeighbors m cd cx cy ds w q).1
          (processNeighbors m cd cx cy ds w q).2 ≤ fuelBound m q := by
  intro ds
  induction ds with
  | nil => intro m q; exact le_refl _
  | cons d ds ih =>
    intro m q
    rcases hR : detail.processNeighbor m cd cx cy d.1 d.2 w q with ⟨m1, q1, b1⟩
    have hstep := fuelBound_processNeighbor_le m cd cx cy d w q hcd0 m1 q1 b1 hR
    have hrw : processNeighbors m cd cx cy (d :: ds) w q =
        processNeighbors m1 cd cx cy ds w q1 := by
      rw [processNeighbors, processNeighbors, List.foldl_cons]
      congr 1
      dsimp only
      rw [hR]
    rw [hrw]
    exact le_trans (ih m1 q1) hstep

theorem runLoop_exhausts {W H : Nat} {dt : DistanceType} {w : Int → Int → Bool}
    {goals : List (Int × Int)} :
    ∀ (fuel : Nat) (m : DijkstraMap) (q : List QueueEntry),
      StateInv W H dt w goals m q → fuelBound m q ≤ fuel →
      (runLoop w (detail.getDirections dt) fuel m q).2 = [] := by
  intro fuel
  induction fuel with
  | zero =>
    intro m q hSI hle
    cases q with
    | nil => rfl
    | cons e rest =>
      exfalso
      unfold fuelBound at hle
      simp at hle
  | succ fuel ih =>
    intro m q hSI hle
    cases q with
    | nil => rfl
    | cons e rest =>
      rw [runLoop]
      by_cases hstale : m.getDistance e.2.1 e.2.2 < e.1
      · rw [if_pos hstale]
        apply ih m rest (stateInv_stale hSI hstale)
        unfold fuelBound at hle ⊢
        simp only [List.length_cons] at hle
        omega
      · rw [if_neg hstale]
        obtain ⟨hInv, hSeed, hPend⟩ := hSI
        obtain ⟨h0, _, _, _⟩ := hInv.entries e (List.mem_cons_self e rest)
        rcases hS : processNeighbors m e.1 e.2.1 e.2.2 (detail.getDirections dt) w rest
          with ⟨m1, q1⟩
        show (runLoop w (detail.getDirections dt) fuel m1 q1).2 = []
        apply ih m1 q1 (stateInv_step ⟨hInv, hSeed, hPend⟩ hstale m1 q1 hS)
        have hfb := fuelBound_processNeighbors_le e.1 e.2.1 e.2.2 w h0
          (detail.getDirections dt) m rest
        rw [hS] at hfb
        dsimp only at hfb
        unfold fuelBound at hle hfb ⊢
        simp only [List.length_cons] at hle
        omega

theorem runLoop_nil (w : Int → Int → Bool) (dirs : CoordList) (fuel : Nat)
    (m : DijkstraMap) : runLoop w dirs fuel m [] = (m, []) := by
  cases fuel <;> rfl

theorem runLoop_add (w : Int → Int → Bool) (dirs : CoordList) :
    ∀ (f g : Nat) (m : DijkstraMap) (q : List QueueEntry),
      (runLoop w dirs f m q).2 = [] →
      runLoop w dirs (f + g) m q = runLoop w dirs f m q := by
  intro f
  induction f with
  | zero =>
    intro g m q hq
    rw [runLoop] at hq
    dsimp only at hq
    subst hq
    rw [Nat.zero_add, runLoop_nil, runLoop]
  | succ f ih =>
    intro g m q hq
    cases q with
    | nil => rw [runLoop_nil, runLoop_nil]
    | cons e rest =>
      have hsucc : f + 1 + g = (f + g) + 1 := by omega
      have hunfold : ∀ k : Nat, runLoop w dirs (k + 1) m (e :: rest) =
          if m.getDistance e.2.1 e.2.2 < e.1 then runLoop w dirs k m rest
          else
            (let s := processNeighbors m e.1 e.2.1 e.2.2 dirs w rest
             runLoop w dirs k s.1 s.2) := by
        intro k
        rw [runLoop]
      rw [hsucc, hunfold (f + g), hunfold f]
      rw [hunfold f] at hq
      by_cases hstale : m.getDistance e.2.1 e.2.2 < e.1
      · rw [if_pos hstale] at hq
        rw [if_pos hstale, if_pos hstale]
        exact ih g m rest hq
      · rw [if_neg hstale] at hq
        rw [if_neg hstale, if_neg hstale]
        exact ih g _ _ hq

end DijkstraMapLib

/-! ### Goal seeding establishes the invariant -/

namespace DijkstraMapLib

theorem isWithinBounds_setDistance (m : DijkstraMap) (x y v a b : Int) :
    (m.setDistance x y v).isWithinBounds a b = m.isWithinBounds a b := by
  unfold DijkstraMap.isWithinBounds
  rw [setDistance_width, setDistance_height]

theorem initializeGoals_inv (W H : Nat) (dt : DistanceType) (w : Int → Int → Bool)
    (goals : List (Int × Int)) :
    ∀ (gs : CoordList), (∀ g ∈ gs, g ∈ goals) →
    ∀ (m : DijkstraMap) (q : List QueueEntry),
      LoopInv W H dt w goals m q → Pending W H dt w m q (fun _ => False) →
      ∀ (m2 : DijkstraMap) (q2 : List QueueEntry),
        detail.initializeGoals m gs w q = (m2, q2) →
        LoopInv W H dt w goals m2 q2 ∧
        Pending W H dt w m2 q2 (fun _ => False) ∧
        (∀ g ∈ gs, okTile W H w g → m2.getDistance g.1 g.2 ≤ 0) ∧
        (∀ a b : Int, m2.getDistance a b ≤ m.getDistance a b) := by
  intro gs
  induction gs with
  | nil =>
    intro _ m q hInv hPend m2 q2 heq
    rw [detail.initializeGoals, List.foldl_nil, Prod.ext_iff] at heq
    obtain ⟨h1, h2⟩ := heq
    dsimp only at h1 h2
    subst h1; subst h2
    exact ⟨hInv, hPend, fun g hg => absurd hg (List.not_mem_nil g),
      fun a b => le_refl _⟩
  | cons g gs ih =>
    intro hsub m q hInv hPend m2 q2 heq
    rw [detail.initializeGoals, List.foldl_cons] at heq
    by_cases hguard : (!(m.isWithinBounds g.1 g.2) || !(w g.1 g.2)) = true
    · rw [if_pos hguard] at heq
      have hrec := ih (fun g2 hg2 => hsub g2 (List.mem_cons_of_mem g hg2)) m q hInv hPend
        m2 q2 heq
      obtain ⟨hInv2, hPend2, hle2, hmono2⟩ := hrec
      refine ⟨hInv2, hPend2, ?_, hmono2⟩
      intro g2 hg2 hok2
      rcases List.mem_cons.mp hg2 with rfl | hg2
      · exfalso
        have hfalse := (guard_false_iff W H m hInv.wEq hInv.hEq w g2.1 g2.2).mpr hok2
        rw [hfalse] at hguard
        exact Bool.false_ne_true hguard
      · exact hle2 g2 hg2 hok2
    · rw [if_neg hguard] at heq
      have hg : (!(m.isWithinBounds g.1 g.2) || !(w g.1 g.2)) = false :=
        Bool.eq_false_iff.mpr hguard
      have hOk : okTile W H w (g.1, g.2) :=
        (guard_false_iff W H m hInv.wEq hInv.hEq w g.1 g.2).mp hg
      have hIn : m.isWithinBounds g.1 g.2 = true := by
        rw [isWithinBounds_iff_inBoundsWH, hInv.wEq, hInv.hEq]
        exact hOk.1
      have h0get : 0 ≤ m.getDistance g.1 g.2 := by
        rcases hInv.cells g.1 g.2 with h | h
        · rw [h]; decide
        · exact h.1
      have hmono : ∀ a b : Int,
          (m.setDistance g.1 g.2 0).getDistance a b ≤ m.getDistance a b :=
        getDistance_setDistance_le m g.1 g.2 0 h0get
      have hself : (m.setDistance g.1 g.2 0).getDistance g.1 g.2 = 0 :=
        getDistance_setDistance_self m g.1 g.2 0 hIn
      have hpath : GoalPath W H dt w goals (g.1, g.2) 0 :=
        GoalPath.goal g (hsub g (List.mem_cons_self g gs)) hOk
      have hInv1 : LoopInv W H dt w goals (m.setDistance g.1 g.2 0)
          (queuePush (0, g.1, g.2) q) := by
        refine ⟨by rw [setDistance_width]; exact hInv.wEq,
          by rw [setDistance_height]; exact hInv.hEq,
          by rw [setDistance_distanceType]; exact hInv.dtEq, ?_, ?_⟩
        · intro e he
          rcases (mem_queuePush _ e q).mp he with rfl | he
          · exact ⟨le_refl 0, show (0 : Int) < UNREACHABLE by decide, le_of_eq hself, hpath⟩
          · obtain ⟨h1, h2, h3, h4⟩ := hInv.entries e he
            exact ⟨h1, h2, le_trans (hmono _ _) h3, h4⟩
        · intro x y
          by_cases hxy : x = g.1 ∧ y = g.2
          · obtain ⟨rfl, rfl⟩ := hxy
            right
            rw [hself]
            exact ⟨le_refl 0, show (0 : Int) < UNREACHABLE by decide, hpath⟩
          · rw [getDistance_setDistance_other m g.1 g.2 0 x y hxy]
            exact hInv.cells x y
      have hPend1 : Pending W H dt w (m.setDistance g.1 g.2 0)
          (queuePush (0, g.1, g.2) q) (fun _ => False) := by
        intro p hexc hne
        by_cases hp : p = (g.1, g.2)
        · subst hp
          right
          exact ⟨(0, g.1, g.2), (mem_queuePush _ _ q).mpr (Or.inl rfl), rfl, hself.symm⟩
        · have hpne : ¬(p.1 = g.1 ∧ p.2 = g.2) := by
            intro hcon
            exact hp (Prod.ext hcon.1 hcon.2)
          have hpe : (m.setDistance g.1 g.2 0).getDistance p.1 p.2 =
              m.getDistance p.1 p.2 :=
            getDistance_setDistance_other m g.1 g.2 0 p.1 p.2 hpne
          rw [hpe] at hne
          rcases hPend p hexc hne with hrel | ⟨e, he, hpe2, hval⟩
          · left
            intro d2 hd2 hok2
            have h2 := hrel d2 hd2 hok2
            have h1 := hmono (p.1 + d2.1) (p.2 + d2.2)
            rw [hpe]
            exact le_trans h1 h2
          · right
            exact ⟨e, (mem_queuePush _ e q).mpr (Or.inr he), hpe2, by rw [hval, hpe]⟩
      have hrec := ih (fun g2 hg2 => hsub g2 (List.mem_cons_of_mem g hg2))
        (m.setDistance g.1 g.2 0) (queuePush (0, g.1, g.2) q) hInv1 hPend1 m2 q2 heq
      obtain ⟨hInv2, hPend2, hle2, hmono2⟩ := hrec
      refine ⟨hInv2, hPend2, ?_, fun a b => le_trans (hmono2 a b) (hmono a b)⟩
      intro g2 hg2 hok2
      rcases List.mem_cons.mp hg2 with rfl | hg2
      · calc m2.getDistance g2.1 g2.2 ≤
            (m.setDistance g2.1 g2.2 0).getDistance g2.1 g2.2 := hmono2 g2.1 g2.2
          _ = 0 := hself
      · exact hle2 g2 hg2 hok2

theorem initializeGoals_establishes (m : DijkstraMap) (goals : CoordList)
    (w : Int → Int → Bool) :
    ∀ (m2 : DijkstraMap) (q2 : List QueueEntry),
      detail.initializeGoals m.clear goals w [] = (m2, q2) →
      StateInv m.width m.height m.distanceType w goals m2 q2 := by
  intro m2 q2 heq
  have hInv0 : LoopInv m.width m.height m.distanceType w goals m.clear [] := by
    refine ⟨clear_width m, clear_height m, clear_distanceType m,
      fun e he => absurd he (List.not_mem_nil e), ?_⟩
    intro x y
    left
    exact getDistance_clear m x y
  have hPend0 : Pending m.width m.height m.distanceType w m.clear []
      (fun _ => False) := by
    intro p _ hne
    exact absurd (getDistance_clear m p.1 p.2) hne
  have hrec := initializeGoals_inv m.width m.height m.distanceType w goals goals
    (fun g hg => hg) m.clear [] hInv0 hPend0 m2 q2 heq
  exact ⟨hrec.1, fun g hg hok => hrec.2.2.1 g hg hok, hrec.2.1⟩

end DijkstraMapLib

/-! ### Correctness of the final state -/

namespace DijkstraMapLib

theorem final_le {W H : Nat} {dt : DistanceType} {w : Int → Int → Bool}
    {goals : List (Int × Int)} {m : DijkstraMap}
    (hSeed : GoalsSeeded W H w goals m)
    (hPend : Pending W H dt w m [] (fun _ => False)) :
    ∀ (u : Int × Int) (c : Int), GoalPath W H dt w goals u c → c < UNREACHABLE →
      m.getDistance u.1 u.2 ≤ c := by
  intro u c hpath
  induction hpath with
  | goal g hg hok => exact fun _ => hSeed g hg hok
  | step p q c hp hd hok ih =>
    intro hcU
    have hone : calcDist dt p.1 p.2 q.1 q.2 = 1 := calcDist_step_one hd
    rw [hone] at hcU ⊢
    have hcU2 : c < UNREACHABLE := by omega
    have hple : m.getDistance p.1 p.2 ≤ c := ih hcU2
    have hne : m.getDistance p.1 p.2 ≠ UNREACHABLE := by
      intro hcon
      rw [hcon] at hple
      omega
    rcases hPend p (fun f => f) hne with hrel | ⟨e, he, _, _⟩
    · have e1 : p.1 + (q.1 - p.1) = q.1 := by ring
      have e2 : p.2 + (q.2 - p.2) = q.2 := by ring
      have hok2 : okTile W H w (p.1 + (q.1 - p.1), p.2 + (q.2 - p.2)) := by
        rw [e1, e2]
        exact hok
      have hstep := hrel (q.1 - p.1, q.2 - p.2) hd hok2
      rw [e1, e2, hone] at hstep
      omega
    · exact absurd he (List.not_mem_nil e)

/-- The final state of a full `generateDijkstraMap` run satisfies the loop
invariant with an exhausted queue. -/
theorem generate_stateInv (m : DijkstraMap) (goals : CoordList) (w : Int → Int → Bool) :
    StateInv m.width m.height m.distanceType w goals
      (generateDijkstraMap m goals w) [] := by
  rcases hI : detail.initializeGoals m.clear goals w [] with ⟨m1, q1⟩
  have hSI := initializeGoals_establishes m goals w m1 q1 hI
  have hdt : m1.getDistanceType = m.distanceType := hSI.1.dtEq
  rcases hR : runLoop w (detail.getDirections m.distanceType) (fuelBound m1 q1) m1 q1
    with ⟨mf, qf⟩
  have hSIf := runLoop_inv (fuelBound m1 q1) m1 q1 hSI mf qf hR
  have hqf : qf = [] := by
    have := runLoop_exhausts (fuelBound m1 q1) m1 q1 hSI (le_refl _)
    rw [hR] at this
    exact this
  have hgen : generateDijkstraMap m goals w = mf := by
    rw [generateDijkstraMap]
    rw [hI]
    dsimp only
    rw [DijkstraMap.getDistanceType, hSI.1.dtEq, hR]
  rw [hgen]
  rw [hqf] at hSIf
  exact hSIf

theorem generate_le (m : DijkstraMap) (goals : CoordList) (w : Int → Int → Bool)
    (u : Int × Int) (c : Int)
    (hpath : GoalPath m.width m.height m.distanceType w goals u c)
    (hcU : c < UNREACHABLE) :
    (generateDijkstraMap m goals w).getDistance u.1 u.2 ≤ c := by
  obtain ⟨hInv, hSeed, hPend⟩ := generate_stateInv m goals w
  exact final_le hSeed hPend u c hpath hcU

theorem generate_eq_min (m : DijkstraMap) (goals : CoordList) (w : Int → Int → Bool)
    (x y c : Int)
    (hpath : GoalPath m.width m.height m.distanceType w goals (x, y) c)
    (hmin : ∀ c2 : Int, GoalPath m.width m.height m.distanceType w goals (x, y) c2 →
      c ≤ c2)
    (hcU : c < UNREACHABLE) :
    (generateDijkstraMap m goals w).getDistance x y = c := by
  have hle := generate_le m goals w (x, y) c hpath hcU
  obtain ⟨hInv, hSeed, hPend⟩ := generate_stateInv m goals w
  rcases hInv.cells x y with h | h
  · exfalso
    dsimp only at hle
    rw [h] at hle
    omega
  · exact le_antisymm hle (hmin _ h.2.2)

theorem generate_not_connected (m : DijkstraMap) (goals : CoordList)
    (w : Int → Int → Bool) (x y : Int)
    (h : ¬(w x y = true ∧ Connected m w goals (x, y))) :
    (generateDijkstraMap m goals w).getDistance x y = UNREACHABLE := by
  obtain ⟨hInv, hSeed, hPend⟩ := generate_stateInv m goals w
  rcases hInv.cells x y with hc | hc
  · exact hc
  · exfalso
    apply h
    have hok := goalPath_ok hc.2.2
    exact ⟨hok.2, ⟨_, hc.2.2⟩⟩

end DijkstraMapLib

/-! ### C1: the generator computes exact shortest accumulated costs -/

/-- C1: after `generateDijkstraMap`, every in-bounds walkable tile connected to
an accepted goal through walkable in-bounds tiles under the metric's
neighborhood stores the minimal accumulated pairwise cost of any such path
(stated for the minimum cost `c`, which by the spec's own sentinel contract is
below `UNREACHABLE`), and every other in-bounds tile stores the `UNREACHABLE`
sentinel. -/
theorem generateDijkstraMap_correct (m : DijkstraMap) (goals : DijkstraMapLib.CoordList)
    (w : Int → Int → Bool) (x y : Int) (hin : m.isWithinBounds x y = true) :
    (∀ c : Int, GoalPath m.width m.height m.distanceType w goals (x, y) c →
      (∀ c2 : Int, GoalPath m.width m.height m.distanceType w goals (x, y) c2 → c ≤ c2) →
      c < UNREACHABLE →
      (DijkstraMapLib.generateDijkstraMap m goals w).getDistance x y = c) ∧
    (¬(w x y = true ∧ Connected m w goals (x, y)) →
      (DijkstraMapLib.generateDijkstraMap m goals w).getDistance x y = UNREACHABLE) :=
  ⟨fun c hpath hmin hcU => DijkstraMapLib.generate_eq_min m goals w x y c hpath hmin hcU,
   fun h => DijkstraMapLib.generate_not_connected m goals w x y h⟩

/-- Witness for C1 on a concrete 1-by-1 grid: the goal tile itself stores the
minimal cost 0, and with a predicate that rejects every tile the same cell
stores the sentinel. -/
theorem generateDijkstraMap_correct_witness :
    (DijkstraMapLib.generateDijkstraMap (DijkstraMap.create 1 1 DistanceType.Manhattan)
      [(0, 0)] (fun _ _ => true)).getDistance 0 0 = 0 ∧
    (DijkstraMapLib.generateDijkstraMap (DijkstraMap.create 1 1 DistanceType.Manhattan)
      [(0, 0)] (fun _ _ => false)).getDistance 0 0 = UNREACHABLE := by
  constructor
  · have hok : okTile 1 1 (fun _ _ => true) ((0 : Int), (0 : Int)) := by
      refine ⟨⟨le_refl 0, ?_, le_refl 0, ?_⟩, rfl⟩ <;> decide
    have hpath : GoalPath 1 1 DistanceType.Manhattan (fun _ _ => true) [(0, 0)]
        (0, 0) 0 := GoalPath.goal (0, 0) (List.mem_singleton.mpr rfl) hok
    exact (generateDijkstraMap_correct (DijkstraMap.create 1 1 DistanceType.Manhattan)
      [(0, 0)] (fun _ _ => true) 0 0 (by decide)).1 0 hpath
      (fun c2 h2 => goalPath_nonneg h2) (by decide)
  · refine (generateDijkstraMap_correct (DijkstraMap.create 1 1 DistanceType.Manhattan)
      [(0, 0)] (fun _ _ => false) 0 0 (by decide)).2 ?_
    rintro ⟨hcon, _⟩
    exact Bool.false_ne_true hcon

/-! ### C4: accepted goals store 0, rejected goals contribute nothing -/

namespace DijkstraMapLib

theorem initializeGoals_filter (w : Int → Int → Bool) :
    ∀ (gs : CoordList) (m : DijkstraMap) (q : List QueueEntry),
      detail.initializeGoals m gs w q =
        detail.initializeGoals m
          (gs.filter fun g => m.isWithinBounds g.1 g.2 && w g.1 g.2) w q := by
  intro gs
  induction gs with
  | nil => intro m q; rfl
  | cons g gs ih =>
    intro m q
    cases hA : m.isWithinBounds g.1 g.2 <;> cases hB : w g.1 g.2
    · rw [detail.initializeGoals, List.foldl_cons]
      dsimp only
      rw [if_pos (by simp [hA])]
      have hf : List.filter (fun g2 => m.isWithinBounds g2.1 g2.2 && w g2.1 g2.2)
          (g :: gs) =
          List.filter (fun g2 => m.isWithinBounds g2.1 g2.2 && w g2.1 g2.2) gs := by
        simp [List.filter_cons, hA]
      rw [hf]
      exact ih m q
    · rw [detail.initializeGoals, List.foldl_cons]
      dsimp only
      rw [if_pos (by simp [hA])]
      have hf : List.filter (fun g2 => m.isWithinBounds g2.1 g2.2 && w g2.1 g2.2)
          (g :: gs) =
          List.filter (fun g2 => m.isWithinBounds g2.1 g2.2 && w g2.1 g2.2) gs := by
        simp [List.filter_cons, hA]
      rw [hf]
      exact ih m q
    · rw [detail.initializeGoals, List.foldl_cons]
      dsimp only
      rw [if_pos (by simp [hB])]
      have hf : List.filter (fun g2 => m.isWithinBounds g2.1 g2.2 && w g2.1 g2.2)
          (g :: gs) =
          List.filter (fun g2 => m.isWithinBounds g2.1 g2.2 && w g2.1 g2.2) gs := by
        simp [List.filter_cons, hB]
      rw [hf]
      exact ih m q
    · rw [detail.initializeGoals, List.foldl_cons]
      dsimp only
      rw [if_neg (by simp [hA, hB])]
      have hf : List.filter (fun g2 => m.isWithinBounds g2.1 g2.2 && w g2.1 g2.2)
          (g :: gs) =
          g :: List.filter (fun g2 => m.isWithinBounds g2.1 g2.2 && w g2.1 g2.2) gs := by
        simp [List.filter_cons, hA, hB]
      rw [hf, detail.initializeGoals, List.foldl_cons]
      dsimp only
      rw [if_neg (by simp [hA, hB])]
      have hrec := ih (m.setDistance g.1 g.2 0) (queuePush (0, g.1, g.2) q)
      have hfc : List.filter
          (fun g2 => (m.setDistance g.1 g.2 0).isWithinBounds g2.1 g2.2 && w g2.1 g2.2)
          gs =
          List.filter (fun g2 => m.isWithinBounds g2.1 g2.2 && w g2.1 g2.2) gs :=
        List.filter_congr (fun g2 _ => by rw [isWithinBounds_setDistance])
      rw [hfc] at hrec
      exact hrec

theorem generate_filter (m : DijkstraMap) (goals : CoordList) (w : Int → Int → Bool) :
    generateDijkstraMap m goals w =
      generateDijkstraMap m
        (goals.filter fun g => m.isWithinBounds g.1 g.2 && w g.1 g.2) w := by
  have hcb : m.clear.isWithinBounds = m.isWithinBounds := rfl
  rw [generateDijkstraMap, generateDijkstraMap]
  rw [initializeGoals_filter w goals m.clear [], hcb]

end DijkstraMapLib

/-- C4: every goal coordinate that is in bounds and walkable stores distance
exactly 0 after generation (relaxation never overwrites a seeded goal), and
dropping the out-of-bounds or non-walkable goals from the goal list leaves the
generated map unchanged — rejected goals are skipped silently and contribute
nothing. -/
theorem goals_seed_zero_and_bad_goals_dropped (m : DijkstraMap)
    (goals : DijkstraMapLib.CoordList) (w : Int → Int → Bool) (gx gy : Int)
    (hg : (gx, gy) ∈ goals) (hin : m.isWithinBounds gx gy = true)
    (hw : w gx gy = true) :
    (DijkstraMapLib.generateDijkstraMap m goals w).getDistance gx gy = 0 ∧
    DijkstraMapLib.generateDijkstraMap m goals w =
      DijkstraMapLib.generateDijkstraMap m
        (goals.filter fun g => m.isWithinBounds g.1 g.2 && w g.1 g.2) w := by
  constructor
  · have hok : okTile m.width m.height w (gx, gy) :=
      ⟨(isWithinBounds_iff_inBoundsWH m gx gy).mp hin, hw⟩
    exact DijkstraMapLib.generate_eq_min m goals w gx gy 0
      (GoalPath.goal (gx, gy) hg hok) (fun c2 h2 => goalPath_nonneg h2) (by decide)
  · exact DijkstraMapLib.generate_filter m goals w

/-- Witness for C4: on a 2-by-1 grid with one good goal and one out-of-bounds
goal, the good goal stores 0 and filtering away the bad goal changes nothing. -/
theorem goals_seed_zero_and_bad_goals_dropped_witness :
    (DijkstraMapLib.generateDijkstraMap (DijkstraMap.create 2 1 DistanceType.Manhattan)
      [(0, 0), (5, 5)] (fun _ _ => true)).getDistance 0 0 = 0 ∧
    DijkstraMapLib.generateDijkstraMap (DijkstraMap.create 2 1 DistanceType.Manhattan)
      [(0, 0), (5, 5)] (fun _ _ => true) =
      DijkstraMapLib.generateDijkstraMap (DijkstraMap.create 2 1 DistanceType.Manhattan)
        ([(0, 0), (5, 5)].filter fun g =>
          (DijkstraMap.create 2 1 DistanceType.Manhattan).isWithinBounds g.1 g.2 &&
            (fun (_ _ : Int) => true) g.1 g.2) (fun _ _ => true) := by
  have h := goals_seed_zero_and_bad_goals_dropped
    (DijkstraMap.create 2 1 DistanceType.Manhattan) [(0, 0), (5, 5)]
    (fun _ _ => true) 0 0 (List.mem_cons_self _ _) (by decide) rfl
  exact h

/-! ### C5: the loop always reaches queue exhaustion -/

/-- C5: for every grid, goal list and walkability predicate, the flood-fill
loop of `generateDijkstraMap` reaches queue exhaustion within `fuelBound`
iterations, and running it any longer changes nothing — the priority-queue
loop always terminates because every re-enqueue strictly decreases a
nonnegative stored distance. -/
theorem generateDijkstraMap_terminates (m : DijkstraMap)
    (goals : DijkstraMapLib.CoordList) (w : Int → Int → Bool) :
    (DijkstraMapLib.runLoop w
      (DijkstraMapLib.detail.getDirections
        (DijkstraMapLib.detail.initializeGoals m.clear goals w []).1.getDistanceType)
      (DijkstraMapLib.fuelBound (DijkstraMapLib.detail.initializeGoals m.clear goals w []).1
        (DijkstraMapLib.detail.initializeGoals m.clear goals w []).2)
      (DijkstraMapLib.detail.initializeGoals m.clear goals w []).1
      (DijkstraMapLib.detail.initializeGoals m.clear goals w []).2).2 = [] ∧
    ∀ extra : Nat,
      DijkstraMapLib.runLoop w
        (DijkstraMapLib.detail.getDirections
          (DijkstraMapLib.detail.initializeGoals m.clear goals w []).1.getDistanceType)
        (DijkstraMapLib.fuelBound
          (DijkstraMapLib.detail.initializeGoals m.clear goals w []).1
          (DijkstraMapLib.detail.initializeGoals m.clear goals w []).2 + extra)
        (DijkstraMapLib.detail.initializeGoals m.clear goals w []).1
        (DijkstraMapLib.detail.initializeGoals m.clear goals w []).2 =
      DijkstraMapLib.runLoop w
        (DijkstraMapLib.detail.getDirections
          (DijkstraMapLib.detail.initializeGoals m.clear goals w []).1.getDistanceType)
        (DijkstraMapLib.fuelBound
          (DijkstraMapLib.detail.initializeGoals m.clear goals w []).1
          (DijkstraMapLib.detail.initializeGoals m.clear goals w []).2)
        (DijkstraMapLib.detail.initializeGoals m.clear goals w []).1
        (DijkstraMapLib.detail.initializeGoals m.clear goals w []).2 := by
  rcases hI : DijkstraMapLib.detail.initializeGoals m.clear goals w [] with ⟨m1, q1⟩
  have hSI := DijkstraMapLib.initializeGoals_establishes m goals w m1 q1 hI
  have hdt : m1.getDistanceType = m.distanceType := hSI.1.dtEq
  have hempty := DijkstraMapLib.runLoop_exhausts
    (DijkstraMapLib.fuelBound m1 q1) m1 q1 hSI (le_refl _)
  constructor
  · rw [hdt]
    exact hempty
  · intro extra
    rw [hdt]
    exact DijkstraMapLib.runLoop_add w _ _ extra m1 q1 hempty

/-! ### C8: no arithmetic ever touches the sentinel -/

/-- C8: at every intermediate state of the flood-fill loop (after `k`
iterations, for every `k`), all queued priorities are finite and nonnegative,
every stored distance is either the untouched sentinel or a finite
nonnegative accumulated cost, and the movement cost added to a popped
priority is the constant 1 — so the addition `currentDist + movementCost`
always has a finite nonnegative left operand taken from the queue and never
involves the sentinel. -/
theorem generator_no_sentinel_arithmetic (m : DijkstraMap)
    (goals : DijkstraMapLib.CoordList) (w : Int → Int → Bool) (k : Nat) :
    (∀ e ∈ (DijkstraMapLib.runLoop w
        (DijkstraMapLib.detail.getDirections
          (DijkstraMapLib.detail.initializeGoals m.clear goals w []).1.getDistanceType) k
        (DijkstraMapLib.detail.initializeGoals m.clear goals w []).1
        (DijkstraMapLib.detail.initializeGoals m.clear goals w []).2).2,
      0 ≤ e.1 ∧ e.1 < UNREACHABLE) ∧
    (∀ x y : Int,
      (DijkstraMapLib.runLoop w
        (DijkstraMapLib.detail.getDirections
          (DijkstraMapLib.detail.initializeGoals m.clear goals w []).1.getDistanceType) k
        (DijkstraMapLib.detail.initializeGoals m.clear goals w []).1
        (DijkstraMapLib.detail.initializeGoals m.clear goals w []).2).1.getDistance x y =
          UNREACHABLE ∨
      (0 ≤ (DijkstraMapLib.runLoop w
        (DijkstraMapLib.detail.getDirections
          (DijkstraMapLib.detail.initializeGoals m.clear goals w []).1.getDistanceType) k
        (DijkstraMapLib.detail.initializeGoals m.clear goals w []).1
        (DijkstraMapLib.detail.initializeGoals m.clear goals w []).2).1.getDistance x y ∧
       (DijkstraMapLib.runLoop w
        (DijkstraMapLib.detail.getDirections
          (DijkstraMapLib.detail.initializeGoals m.clear goals w []).1.getDistanceType) k
        (DijkstraMapLib.detail.initializeGoals m.clear goals w []).1
        (DijkstraMapLib.detail.initializeGoals m.clear goals w []).2).1.getDistance x y <
          UNREACHABLE)) ∧
    (∀ e ∈ (DijkstraMapLib.runLoop w
        (DijkstraMapLib.detail.getDirections
          (DijkstraMapLib.detail.initializeGoals m.clear goals w []).1.getDistanceType) k
        (DijkstraMapLib.detail.initializeGoals m.clear goals w []).1
        (DijkstraMapLib.detail.initializeGoals m.clear goals w []).2).2,
      ∀ d ∈ DijkstraMapLib.detail.getDirections
        (DijkstraMapLib.detail.initializeGoals m.clear goals w []).1.getDistanceType,
      (DijkstraMapLib.runLoop w
        (DijkstraMapLib.detail.getDirections
          (DijkstraMapLib.detail.initializeGoals m.clear goals w []).1.getDistanceType) k
        (DijkstraMapLib.detail.initializeGoals m.clear goals w []).1
        (DijkstraMapLib.detail.initializeGoals m.clear goals w []).2).1.calculateDistance
          e.2.1 e.2.2 (e.2.1 + d.1) (e.2.2 + d.2) = 1) := by
  rcases hI : DijkstraMapLib.detail.initializeGoals m.clear goals w [] with ⟨m1, q1⟩
  have hSI := DijkstraMapLib.initializeGoals_establishes m goals w m1 q1 hI
  have hdt : m1.getDistanceType = m.distanceType := hSI.1.dtEq
  rw [hdt]
  rcases hR : DijkstraMapLib.runLoop w
      (DijkstraMapLib.detail.getDirections m.distanceType) k m1 q1 with ⟨mk, qk⟩
  have hSIk := DijkstraMapLib.runLoop_inv k m1 q1 hSI mk qk hR
  dsimp only
  refine ⟨?_, ?_, ?_⟩
  · intro e he
    obtain ⟨h1, h2, _, _⟩ := hSIk.1.entries e he
    exact ⟨h1, h2⟩
  · intro x y
    rcases hSIk.1.cells x y with h | h
    · exact Or.inl h
    · exact Or.inr ⟨h.1, h.2.1⟩
  · intro e _ d hd
    rw [DijkstraMap.calculateDistance, hSIk.1.dtEq]
    exact calcDist_dir_one m.distanceType d hd e.2.1 e.2.2

/-! ### Metric lower bounds on path costs (single-goal runs) -/

/-- The metric quantity every walkable path from `g` must cover: Chebyshev
distance when diagonal movement is available, Manhattan distance otherwise. -/
def metricLB (dt : DistanceType) (g u : Int × Int) : Int :=
  match dt with
  | DistanceType.Chebyshev => calculateChebyshevDistance (u.1 - g.1) (u.2 - g.2)
  | DistanceType.Manhattan => calculateManhattanDistance (u.1 - g.1) (u.2 - g.2)
  | DistanceType.Euclidean => calculateManhattanDistance (u.1 - g.1) (u.2 - g.2)

theorem getDirections_bounds (dt : DistanceType) :
    ∀ d ∈ DijkstraMapLib.detail.getDirections dt,
      d.1.natAbs ≤ 1 ∧ d.2.natAbs ≤ 1 := by
  cases dt <;> decide

theorem getDirections_sum_bounds (dt : DistanceType) (h : dt ≠ DistanceType.Chebyshev) :
    ∀ d ∈ DijkstraMapLib.detail.getDirections dt,
      d.1.natAbs + d.2.natAbs ≤ 1 := by
  cases dt with
  | Chebyshev => exact absurd rfl h
  | Manhattan => decide
  | Euclidean => decide

theorem goalPath_single_lb {W H : Nat} {dt : DistanceType} {w : Int → Int → Bool}
    {g : Int × Int} :
    ∀ {u : Int × Int} {c : Int}, GoalPath W H dt w [g] u c → metricLB dt g u ≤ c := by
  intro u c h
  induction h with
  | goal g2 hg2 hok =>
    have hg2g : g2 = g := List.mem_singleton.mp hg2
    subst hg2g
    cases dt <;>
      simp [metricLB, calculateChebyshevDistance, calculateManhattanDistance, sub_self]
  | step p q c hp hd hok ih =>
    have hone : calcDist dt p.1 p.2 q.1 q.2 = 1 := calcDist_step_one hd
    rw [hone]
    have htri : metricLB dt g q ≤ metricLB dt g p + 1 := by
      cases dt with
      | Chebyshev =>
        obtain ⟨hb1, hb2⟩ := getDirections_bounds DistanceType.Chebyshev _ hd
        simp only [metricLB, calculateChebyshevDistance]
        omega
      | Manhattan =>
        have hb := getDirections_sum_bounds DistanceType.Manhattan (by simp) _ hd
        simp only [metricLB, calculateManhattanDistance]
        omega
      | Euclidean =>
        have hb := getDirections_sum_bounds DistanceType.Euclidean (by simp) _ hd
        simp only [metricLB, calculateManhattanDistance]
        omega
    omega

theorem metricLB_line (dt : DistanceType) (d : Int × Int)
    (hd : d ∈ DijkstraMapLib.detail.getDirections dt) (g : Int × Int) (k : Nat) :
    metricLB dt g (g.1 + (k : Int) * d.1, g.2 + (k : Int) * d.2) = (k : Int) := by
  have e1 : g.1 + (k : Int) * d.1 - g.1 = (k : Int) * d.1 := by ring
  have e2 : g.2 + (k : Int) * d.2 - g.2 = (k : Int) * d.2 := by ring
  cases dt <;>
    simp only [metricLB, calculateChebyshevDistance, calculateManhattanDistance, e1, e2] <;>
    revert hd <;>
    simp only [DijkstraMapLib.detail.getDirections, List.mem_cons, List.not_mem_nil,
      or_false, reduceIte, reduceCtorEq, if_true, if_false] <;>
    rintro (rfl | rfl | rfl | rfl | rfl | rfl | rfl | rfl) <;>
    dsimp only <;>
    omega

/-! ### Distances along an unobstructed movement-direction line (single goal) -/

namespace DijkstraMapLib

theorem generate_line_single_goal (m : DijkstraMap) (g : Int × Int)
    (w : Int → Int → Bool) (d : Int × Int)
    (hd : d ∈ detail.getDirections m.distanceType) (n : Nat)
    (hline : ∀ i : Nat, i ≤ n →
      okTile m.width m.height w (g.1 + (i : Int) * d.1, g.2 + (i : Int) * d.2))
    (hn : (n : Int) < UNREACHABLE) :
    ∀ k : Nat, k ≤ n →
      (generateDijkstraMap m [g] w).getDistance
        (g.1 + (k : Int) * d.1) (g.2 + (k : Int) * d.2) = (k : Int) := by
  have hpath : ∀ k : Nat, k ≤ n →
      GoalPath m.width m.height m.distanceType w [g]
        (g.1 + (k : Int) * d.1, g.2 + (k : Int) * d.2) (k : Int) := by
    intro k
    induction k with
    | zero =>
      intro _
      have hok := hline 0 (Nat.zero_le n)
      have he : (g.1 + ((0 : Nat) : Int) * d.1, g.2 + ((0 : Nat) : Int) * d.2) = g := by
        have e1 : g.1 + ((0 : Nat) : Int) * d.1 = g.1 := by push_cast; ring
        have e2 : g.2 + ((0 : Nat) : Int) * d.2 = g.2 := by push_cast; ring
        rw [e1, e2]
      rw [he] at hok ⊢
      exact GoalPath.goal g (List.mem_singleton.mpr rfl) hok
    | succ k ih =>
      intro hk1
      have hp := ih (by omega)
      have hokk1 := hline (k + 1) hk1
      have hd2 : ((g.1 + ((k + 1 : Nat) : Int) * d.1) - (g.1 + (k : Int) * d.1),
          (g.2 + ((k + 1 : Nat) : Int) * d.2) - (g.2 + (k : Int) * d.2)) ∈
          detail.getDirections m.distanceType := by
        have e1 : (g.1 + ((k + 1 : Nat) : Int) * d.1) - (g.1 + (k : Int) * d.1) = d.1 := by
          push_cast; ring
        have e2 : (g.2 + ((k + 1 : Nat) : Int) * d.2) - (g.2 + (k : Int) * d.2) = d.2 := by
          push_cast; ring
        rw [e1, e2]
        exact hd
      have hstep := GoalPath.step (g.1 + (k : Int) * d.1, g.2 + (k : Int) * d.2)
        (g.1 + ((k + 1 : Nat) : Int) * d.1, g.2 + ((k + 1 : Nat) : Int) * d.2)
        (k : Int) hp hd2 hokk1
      have hone : calcDist m.distanceType (g.1 + (k : Int) * d.1) (g.2 + (k : Int) * d.2)
          (g.1 + ((k + 1 : Nat) : Int) * d.1) (g.2 + ((k + 1 : Nat) : Int) * d.2) = 1 := by
        have h1 := calcDist_dir_one m.distanceType d hd
          (g.1 + (k : Int) * d.1) (g.2 + (k : Int) * d.2)
        have e1 : g.1 + (k : Int) * d.1 + d.1 = g.1 + ((k + 1 : Nat) : Int) * d.1 := by
          push_cast; ring
        have e2 : g.2 + (k : Int) * d.2 + d.2 = g.2 + ((k + 1 : Nat) : Int) * d.2 := by
          push_cast; ring
        rw [e1, e2] at h1
        exact h1
      rw [hone] at hstep
      have hcast : (k : Int) + 1 = ((k + 1 : Nat) : Int) := by push_cast; ring
      rw [hcast] at hstep
      exact hstep
  intro k hk
  apply generate_eq_min m [g] w _ _ (k : Int) (hpath k hk)
  · intro c2 h2
    have hlb := goalPath_single_lb h2
    rw [metricLB_line m.distanceType d hd g k] at hlb
    exact hlb
  · omega

/-- Evaluating `generateDijkstraMap` with any sufficient smaller fuel gives the
same grid: used to compute concrete runs inside the kernel. -/
theorem generate_eval (m : DijkstraMap) (goals : CoordList) (w : Int → Int → Bool)
    (f : Nat) (m1 : DijkstraMap) (q1 : List QueueEntry)
    (hI : detail.initializeGoals m.clear goals w [] = (m1, q1))
    (hle : f ≤ fuelBound m1 q1)
    (hempty : (runLoop w (detail.getDirections m.distanceType) f m1 q1).2 = []) :
    generateDijkstraMap m goals w =
      (runLoop w (detail.getDirections m.distanceType) f m1 q1).1 := by
  have hSI := initializeGoals_establishes m goals w m1 q1 hI
  rw [generateDijkstraMap, hI]
  dsimp only
  rw [DijkstraMap.getDistanceType, hSI.1.dtEq]
  have hsplit : fuelBound m1 q1 = f + (fuelBound m1 q1 - f) := by omega
  rw [hsplit, runLoop_add w _ f (fuelBound m1 q1 - f) m1 q1 hempty]

theorem toNat_getDistance_le_gridPotential (m : DijkstraMap) (x y : Int)
    (hin : m.isWithinBounds x y = true) :
    (m.getDistance x y).toNat ≤ gridPotential m := by
  have hb := (isWithinBounds_iff m x y).mp hin
  have hxW : x.toNat < m.width := by omega
  have hyH : y.toNat < m.height := by omega
  have hxc : (x.toNat : Int) = x := by omega
  have hyc : (y.toNat : Int) = y := by omega
  have hinner : (m.getDistance x y).toNat ≤
      Finset.sum (Finset.range m.height)
        (fun j => (m.getDistance ((x.toNat : Nat) : Int) ((j : Nat) : Int)).toNat) := by
    have hfun : ∀ i ∈ Finset.range m.height,
        0 ≤ (fun j : Nat =>
          (m.getDistance ((x.toNat : Nat) : Int) ((j : Nat) : Int)).toNat) i :=
      fun i _ => Nat.zero_le _
    have := Finset.single_le_sum hfun (Finset.mem_range.mpr hyH)
    rw [hxc, hyc] at this
    rw [hxc]
    exact this
  have houter : Finset.sum (Finset.range m.height)
      (fun j => (m.getDistance ((x.toNat : Nat) : Int) ((j : Nat) : Int)).toNat) ≤
      gridPotential m := by
    unfold gridPotential
    have hfun2 : ∀ i ∈ Finset.range m.width,
        0 ≤ (fun i2 : Nat => Finset.sum (Finset.range m.height)
          (fun j => (m.getDistance ((i2 : Nat) : Int) ((j : Nat) : Int)).toNat)) i :=
      fun i _ => Nat.zero_le _
    exact Finset.single_le_sum hfun2 (Finset.mem_range.mpr hxW)
  exact le_trans hinner houter

end DijkstraMapLib

/-! ### C9: monotonicity along a line — corrected to single-goal runs -/

/-- C9 (amended): with a SINGLE goal, for tiles lying on a straight
unobstructed line from the goal along a movement direction of the metric's
neighborhood, the k-th tile stores exactly cost k, hence the farther tile's
stored distance is ≥ the nearer tile's, and consecutive tiles on the line
differ by exactly the single-step edge cost
`calculateDistance` (with multiple goals the original statement is false; see
the counterexample). -/
theorem line_monotone_single_goal (m : DijkstraMap) (g : Int × Int)
    (w : Int → Int → Bool) (d : Int × Int)
    (hd : d ∈ DijkstraMapLib.detail.getDirections m.distanceType) (n : Nat)
    (hline : ∀ i : Nat, i ≤ n →
      okTile m.width m.height w (g.1 + (i : Int) * d.1, g.2 + (i : Int) * d.2))
    (hn : (n : Int) < UNREACHABLE) :
    (∀ k : Nat, k ≤ n →
      (DijkstraMapLib.generateDijkstraMap m [g] w).getDistance
        (g.1 + (k : Int) * d.1) (g.2 + (k : Int) * d.2) = (k : Int)) ∧
    (∀ j k : Nat, j ≤ k → k ≤ n →
      (DijkstraMapLib.generateDijkstraMap m [g] w).getDistance
        (g.1 + (j : Int) * d.1) (g.2 + (j : Int) * d.2) ≤
      (DijkstraMapLib.generateDijkstraMap m [g] w).getDistance
        (g.1 + (k : Int) * d.1) (g.2 + (k : Int) * d.2)) ∧
    (∀ k : Nat, k + 1 ≤ n →
      (DijkstraMapLib.generateDijkstraMap m [g] w).getDistance
        (g.1 + ((k + 1 : Nat) : Int) * d.1) (g.2 + ((k + 1 : Nat) : Int) * d.2) =
      (DijkstraMapLib.generateDijkstraMap m [g] w).getDistance
        (g.1 + (k : Int) * d.1) (g.2 + (k : Int) * d.2) +
      m.calculateDistance (g.1 + (k : Int) * d.1) (g.2 + (k : Int) * d.2)
        (g.1 + ((k + 1 : Nat) : Int) * d.1) (g.2 + ((k + 1 : Nat) : Int) * d.2)) := by
  have hval := DijkstraMapLib.generate_line_single_goal m g w d hd n hline hn
  refine ⟨hval, ?_, ?_⟩
  · intro j k hjk hkn
    rw [hval j (le_trans hjk hkn), hval k hkn]
    exact_mod_cast hjk
  · intro k hk1
    have hcost : m.calculateDistance (g.1 + (k : Int) * d.1) (g.2 + (k : Int) * d.2)
        (g.1 + ((k + 1 : Nat) : Int) * d.1) (g.2 + ((k + 1 : Nat) : Int) * d.2) = 1 := by
      rw [DijkstraMap.calculateDistance]
      have h1 := calcDist_dir_one m.distanceType d hd
        (g.1 + (k : Int) * d.1) (g.2 + (k : Int) * d.2)
      have e1 : g.1 + (k : Int) * d.1 + d.1 = g.1 + ((k + 1 : Nat) : Int) * d.1 := by
        push_cast; ring
      have e2 : g.2 + (k : Int) * d.2 + d.2 = g.2 + ((k + 1 : Nat) : Int) * d.2 := by
        push_cast; ring
      rw [e1, e2] at h1
      exact h1
    rw [hcost, hval (k + 1) hk1, hval k (by omega)]
    push_cast
    ring

/-- Witness for the amended C9 on a 3-by-1 Manhattan grid with the single goal
(0,0): the line tiles (0,0), (1,0), (2,0) store 0, 1, 2. -/
theorem line_monotone_single_goal_witness :
    (DijkstraMapLib.generateDijkstraMap (DijkstraMap.create 3 1 DistanceType.Manhattan)
      [((0 : Int), (0 : Int))] (fun _ _ => true)).getDistance
        (0 + ((2 : Nat) : Int) * 1) (0 + ((2 : Nat) : Int) * 0) = ((2 : Nat) : Int) := by
  have h := line_monotone_single_goal (DijkstraMap.create 3 1 DistanceType.Manhattan)
    (0, 0) (fun _ _ => true) (1, 0) (by decide) 2
    (by
      intro i hi
      refine ⟨⟨by omega, ?_, by omega, ?_⟩, rfl⟩
      · show (0 : Int) + (i : Int) * 1 < ((3 : Nat) : Int)
        omega
      · show (0 : Int) + (i : Int) * 0 < ((1 : Nat) : Int)
        omega)
    (by decide)
  exact h.1 2 (le_refl 2)

/-! ### C9 as stated is false for multi-goal runs: a concrete counterexample -/

/-- The 10-by-1 Manhattan grid of the counterexample. -/
def lineCounterexampleMap : DijkstraMap :=
  DijkstraMap.create 10 1 DistanceType.Manhattan

/-- Two goals, one at each end of the strip. -/
def lineCounterexampleGoals : DijkstraMapLib.CoordList := [(0, 0), (9, 0)]

/-- Every tile of the strip is walkable. -/
def allWalkable : Int → Int → Bool := fun _ _ => true

/-- Counterexample to C9 as stated: on the 10-by-1 Manhattan grid with goals
(0,0) and (9,0) and everything walkable, the tiles (2,0) and (8,0) both lie on
the straight unobstructed line from the goal (0,0) in direction (1,0), with
(8,0) farther from that goal than (2,0); yet after `generateDijkstraMap` the
farther tile stores 1 while the nearer stores 2, so the farther tile's stored
distance is strictly SMALLER, and the orthogonal line neighbors (7,0), (8,0)
(both reached from the other goal) differ by −1 rather than the single-step
edge cost +1. -/
theorem line_monotone_counterexample :
    (∀ i : Nat, i ≤ 8 →
      okTile 10 1 allWalkable ((0 : Int) + (i : Int) * 1, (0 : Int) + (i : Int) * 0)) ∧
    (DijkstraMapLib.generateDijkstraMap lineCounterexampleMap lineCounterexampleGoals
      allWalkable).getDistance 2 0 = 2 ∧
    (DijkstraMapLib.generateDijkstraMap lineCounterexampleMap lineCounterexampleGoals
      allWalkable).getDistance 8 0 = 1 ∧
    (DijkstraMapLib.generateDijkstraMap lineCounterexampleMap lineCounterexampleGoals
      allWalkable).getDistance 8 0 <
      (DijkstraMapLib.generateDijkstraMap lineCounterexampleMap lineCounterexampleGoals
        allWalkable).getDistance 2 0 := by
  have hI : DijkstraMapLib.detail.initializeGoals lineCounterexampleMap.clear
      lineCounterexampleGoals allWalkable [] =
      ((DijkstraMapLib.detail.initializeGoals lineCounterexampleMap.clear
        lineCounterexampleGoals allWalkable []).1,
       (DijkstraMapLib.detail.initializeGoals lineCounterexampleMap.clear
        lineCounterexampleGoals allWalkable []).2) := rfl
  have hcellU : (DijkstraMapLib.detail.initializeGoals lineCounterexampleMap.clear
      lineCounterexampleGoals allWalkable []).1.getDistance 1 0 = UNREACHABLE := by decide
  have hcellIn : (DijkstraMapLib.detail.initializeGoals lineCounterexampleMap.clear
      lineCounterexampleGoals allWalkable []).1.isWithinBounds 1 0 = true := by decide
  have hpot := DijkstraMapLib.toNat_getDistance_le_gridPotential
    (DijkstraMapLib.detail.initializeGoals lineCounterexampleMap.clear
      lineCounterexampleGoals allWalkable []).1 1 0 hcellIn
  rw [hcellU] at hpot
  have hle : 40 ≤ DijkstraMapLib.fuelBound
      (DijkstraMapLib.detail.initializeGoals lineCounterexampleMap.clear
        lineCounterexampleGoals allWalkable []).1
      (DijkstraMapLib.detail.initializeGoals lineCounterexampleMap.clear
        lineCounterexampleGoals allWalkable []).2 := by
    have h40 : 40 ≤ UNREACHABLE.toNat := by decide
    unfold DijkstraMapLib.fuelBound
    omega
  have hempty : (DijkstraMapLib.runLoop allWalkable
      (DijkstraMapLib.detail.getDirections lineCounterexampleMap.distanceType) 40
      (DijkstraMapLib.detail.initializeGoals lineCounterexampleMap.clear
        lineCounterexampleGoals allWalkable []).1
      (DijkstraMapLib.detail.initializeGoals lineCounterexampleMap.clear
        lineCounterexampleGoals allWalkable []).2).2 = [] := by decide
  have hgen := DijkstraMapLib.generate_eval lineCounterexampleMap lineCounterexampleGoals
    allWalkable 40 _ _ hI hle hempty
  rw [hgen]
  refine ⟨?_, by decide, by decide, by decide⟩
  intro i hi
  refine ⟨⟨by omega, ?_, by omega, ?_⟩, rfl⟩
  · show (0 : Int) + (i : Int) * 1 < ((10 : Nat) : Int)
    omega
  · show (0 : Int) + (i : Int) * 0 < ((1 : Nat) : Int)
    omega

/-! ### Concrete witnesses for the remaining claim theorems -/

/-- Witness for C2: the Chebyshev metric selects exactly the eight-offset
neighborhood. -/
theorem directions_metric_coupling_witness :
    DijkstraMapLib.detail.getDirections DistanceType.Chebyshev =
      [(0, 1), (0, -1), (1, 0), (-1, 0), (1, 1), (1, -1), (-1, 1), (-1, -1)] :=
  (DijkstraMapLib.directions_metric_coupling.1 DistanceType.Chebyshev).1.mpr rfl

/-- Witness for C6: on a fresh 1-by-1 grid with an all-true predicate the
single tile is reported unreachable. -/
theorem findUnreachableTiles_exact_witness :
    ((0 : Int), (0 : Int)) ∈ DijkstraMapLib.findUnreachableTiles
      (DijkstraMap.create 1 1 DistanceType.Manhattan) (fun _ _ => true) :=
  ((DijkstraMapLib.findUnreachableTiles_exact
    (DijkstraMap.create 1 1 DistanceType.Manhattan) (fun _ _ => true)).2 (0, 0)).mpr
    ⟨by decide, rfl, by decide⟩

/-- Witness for C8 at a concrete state: after zero iterations on a 1-by-1 grid
seeded with goal (0,0), the queued entry carries priority 0 — finite and
nonnegative — and the movement cost from it is 1. -/
theorem generator_no_sentinel_arithmetic_witness :
    (0 ≤ ((0 : Int), (0 : Int), (0 : Int)).1 ∧
      ((0 : Int), (0 : Int), (0 : Int)).1 < UNREACHABLE) ∧
    (DijkstraMapLib.runLoop (fun _ _ => true)
      (DijkstraMapLib.detail.getDirections
        (DijkstraMapLib.detail.initializeGoals
          (DijkstraMap.create 1 1 DistanceType.Manhattan).clear [(0, 0)]
          (fun _ _ => true) []).1.getDistanceType) 0
      (DijkstraMapLib.detail.initializeGoals
        (DijkstraMap.create 1 1 DistanceType.Manhattan).clear [(0, 0)]
        (fun _ _ => true) []).1
      (DijkstraMapLib.detail.initializeGoals
        (DijkstraMap.create 1 1 DistanceType.Manhattan).clear [(0, 0)]
        (fun _ _ => true) []).2).1.calculateDistance 0 0 (0 + 0) (0 + 1) = 1 := by
  have h := generator_no_sentinel_arithmetic
    (DijkstraMap.create 1 1 DistanceType.Manhattan) [(0, 0)] (fun _ _ => true) 0
  refine ⟨h.1 (0, 0, 0) (by decide), ?_⟩
  exact h.2.2 (0, 0, 0) (by decide) (0, 1) (by decide)
